import Mathlib

/-!
The reconcilers of `internal/controller` of imagepullsecrets-controller.

A shallow embedding of `ipes_controller.go` and `pod_controller.go`.

* Kubernetes objects are records holding the fields the controllers read or write.
* The embedded `client.Client` is a record of functions over an abstract store state;
  every method returns its result together with the next store state.
* A reconciler method returns an `Outcome`: the error it returns (if any), the store
  state it leaves, the API calls it issued in order, and the receiver after the call.
* Logging (`logger.Info`, `logger.Error`) has no effect on results and is left out.
-/

namespace Controller

/-! ## Errors -/

/-- Reason carried by an API status error (`metav1.StatusReason`). -/
inductive StatusReason where
  | NotFound
  | AlreadyExists
  | Conflict
  | Timeout
  | InternalError
  | Unknown
  deriving DecidableEq, Repr

/-- Go `error` values met by the controllers: an API status error of the client, or the
plain string error that `fmt.Errorf` builds when its format has no `%w` verb. -/
inductive GoError where
  | status (reason : StatusReason) (message : String)
  | errorString (s : String)
  deriving DecidableEq, Repr

/-- The method `Error()` of a Go error: its message. -/
def GoError.Error : GoError → String
  | .status _ message => message
  | .errorString s => s

/-- The function `errors.IsNotFound` of apimachinery: the error is a status error
whose reason is `NotFound`. A plain string error has no status, hence no reason. -/
def IsNotFound : GoError → Bool
  | .status .NotFound _ => true
  | _ => false

/-- The function `errors.IsAlreadyExists` of apimachinery. -/
def IsAlreadyExists : GoError → Bool
  | .status .AlreadyExists _ => true
  | _ => false

/-- The call `fmt.Errorf("listing pods in %s namespace: %v", namespace, err)`. -/
def errListingPods (namespace_ : String) (err : GoError) : GoError :=
  .errorString ("listing pods in " ++ namespace_ ++ " namespace: " ++ err.Error)

/-- The call `fmt.Errorf("listing secrets in %s namespace: %v", namespace, err)`. -/
def errListingSecrets (namespace_ : String) (err : GoError) : GoError :=
  .errorString ("listing secrets in " ++ namespace_ ++ " namespace: " ++ err.Error)

/-- The call `fmt.Errorf("creating ExternalSecret: %v", err)`. -/
def errCreating (err : GoError) : GoError :=
  .errorString ("creating ExternalSecret: " ++ err.Error)

/-- The call `fmt.Errorf("deleting ExternalSecret: %v", err)`. -/
def errDeleting (err : GoError) : GoError :=
  .errorString ("deleting ExternalSecret: " ++ err.Error)

/-! ## Objects -/

/-- The type `metav1.ObjectMeta`, restricted to the fields in play. `DeletionTimestamp`
is a pointer to a time; a time is a number of ticks, `0` being the zero time. -/
structure ObjectMeta where
  Name : String := ""
  Namespace : String := ""
  DeletionTimestamp : Option Nat := none
  Labels : List (String × String) := []
  deriving DecidableEq, Repr

/-- The method `(*metav1.Time).IsZero`: a nil pointer or the zero time. -/
def IsZero : Option Nat → Bool
  | none => true
  | some t => t == 0

/-- The type `corev1.LocalObjectReference`. -/
structure LocalObjectReference where
  Name : String := ""
  deriving DecidableEq, Repr

/-- The type `corev1.Container`, restricted to name and image. -/
structure Container where
  Name : String := ""
  Image : String := ""
  deriving DecidableEq, Repr

/-- The type `corev1.PodSpec`, restricted to the fields in play. -/
structure PodSpec where
  ImagePullSecrets : List LocalObjectReference := []
  Containers : List Container := []
  deriving DecidableEq, Repr

/-- The type `corev1.Pod`. The default value is the Go zero value of `var pod corev1.Pod`. -/
structure Pod where
  ObjectMeta : ObjectMeta := {}
  Spec : PodSpec := {}
  deriving DecidableEq, Repr

/-- The promoted field `pod.Namespace`. -/
def Pod.Namespace (pod : Pod) : String := pod.ObjectMeta.Namespace

/-- The promoted field `pod.Name`. -/
def Pod.Name (pod : Pod) : String := pod.ObjectMeta.Name

/-- The type `corev1.Secret`, restricted to its metadata. -/
structure Secret where
  ObjectMeta : ObjectMeta := {}
  deriving DecidableEq, Repr

/-- The promoted field `secret.Name`. -/
def Secret.Name (secret : Secret) : String := secret.ObjectMeta.Name

/-- The type `ExternalSecretSpec` of external-secrets, as far as the template of the
tests fills it. -/
structure ExternalSecretSpec where
  RefreshInterval : String := ""
  SecretStoreRefKind : String := ""
  SecretStoreRefName : String := ""
  TargetName : String := ""
  TargetCreationPolicy : String := ""
  Data : List (String × String × String) := []
  deriving DecidableEq, Repr

/-- The type `esv1beta1.ExternalSecret`. -/
structure ExternalSecret where
  ObjectMeta : ObjectMeta := {}
  Spec : ExternalSecretSpec := {}
  deriving DecidableEq, Repr

/-- The promoted field `es.Name`. -/
def ExternalSecret.Name (es : ExternalSecret) : String := es.ObjectMeta.Name

/-- The promoted field `es.Namespace`. -/
def ExternalSecret.Namespace (es : ExternalSecret) : String := es.ObjectMeta.Namespace

/-- The method `SetNamespace` of `metav1.ObjectMeta`, promoted to the ExternalSecret:
it assigns the `Namespace` field and nothing else. -/
def ExternalSecret.SetNamespace (es : ExternalSecret) (namespace_ : String) : ExternalSecret :=
  { es with ObjectMeta := { es.ObjectMeta with Namespace := namespace_ } }

/-- The type `types.NamespacedName`, the key carried by a `ctrl.Request`. -/
structure NamespacedName where
  Namespace : String := ""
  Name : String := ""
  deriving DecidableEq, Repr

/-- The type `ctrl.Request`. -/
structure Request where
  NamespacedName : NamespacedName := {}
  deriving DecidableEq, Repr

/-- The promoted field `req.Namespace`. -/
def Request.Namespace (req : Request) : String := req.NamespacedName.Namespace

/-- The type `ctrl.Result`. -/
structure Result where
  Requeue : Bool := false
  RequeueAfter : Nat := 0
  deriving DecidableEq, Repr

/-! ## The client -/

/-- One call on the embedded `client.Client`, as recorded in the order of issue. -/
inductive Call where
  | Get (key : NamespacedName)
  | ListPods (namespace_ : String)
  | ListExternalSecrets (namespace_ : String)
  | ListSecrets (namespace_ : String)
  | Create (obj : ExternalSecret)
  | Delete (obj : ExternalSecret)
  deriving DecidableEq, Repr

/-- A create or delete call. -/
def Call.isMutation : Call → Bool
  | .Create _ => true
  | .Delete _ => true
  | _ => false

/-- A create call. -/
def Call.isCreate : Call → Bool
  | .Create _ => true
  | _ => false

/-- A delete call. -/
def Call.isDelete : Call → Bool
  | .Delete _ => true
  | _ => false

/-- A list call, of any kind. -/
def Call.isList : Call → Bool
  | .ListPods _ => true
  | .ListExternalSecrets _ => true
  | .ListSecrets _ => true
  | _ => false

/-- The interface `client.Client` as the controllers use it, over a store state `σ`.
`Get` of a pod, `List` of pods, of ExternalSecrets and of Secrets with
`ListOptions{Namespace: ns}`, `Create` and `Delete` of an ExternalSecret. A failed `Get`
leaves the out-parameter untouched, as the controller-runtime clients do. -/
structure Client (σ : Type) where
  Get : σ → NamespacedName → Except GoError Pod × σ
  ListPods : σ → String → Except GoError (List Pod) × σ
  ListExternalSecrets : σ → String → Except GoError (List ExternalSecret) × σ
  ListSecrets : σ → String → Except GoError (List Secret) × σ
  Create : σ → ExternalSecret → Option GoError × σ
  Delete : σ → ExternalSecret → Option GoError × σ

/-- What a method of a reconciler `ρ` leaves behind: the returned error (`none` is
`nil`), the store state, the calls issued in order, and the receiver after the call. -/
structure Outcome (σ ρ : Type) where
  err : Option GoError
  state : σ
  calls : List Call
  receiver : ρ

/-- The function `slices.ContainsFunc`. -/
def ContainsFunc {α : Type} : List α → (α → Bool) → Bool
  | [], _ => false
  | x :: xs, f => if f x then true else ContainsFunc xs f

/-! ## ipes_controller.go -/

/-- The type `ImagePullExternalSecretReconciler` (the unused `Scheme` left out). -/
structure ImagePullExternalSecretReconciler (σ : Type) where
  Client : Client σ
  TriggerSecretName : String
  DesiredExternalSecret : ExternalSecret

namespace ImagePullExternalSecretReconciler

variable {σ : Type}

/-- The closure `matchesTargetSecretName` of `Reconcile`. -/
def matchesTargetSecretName (r : ImagePullExternalSecretReconciler σ)
    (obj : LocalObjectReference) : Bool :=
  obj.Name == r.TriggerSecretName

/-- The loop of the closure `usesTargetSecret`: return true at the first match. -/
def usesTargetSecretLoop (trigger : String) : List LocalObjectReference → Bool
  | [] => false
  | obj :: rest => if obj.Name == trigger then true else usesTargetSecretLoop trigger rest

/-- The closure `usesTargetSecret` of `reconcileExternalSecrets`. -/
def usesTargetSecret (r : ImagePullExternalSecretReconciler σ) (pod : Pod) : Bool :=
  usesTargetSecretLoop r.TriggerSecretName pod.Spec.ImagePullSecrets

/-- The loop computing `targetSecretExists`: it runs over the whole list and sets the
flag at every ExternalSecret named as the template. -/
def targetSecretExistsLoop (name : String) : Bool → List ExternalSecret → Bool
  | acc, [] => acc
  | acc, es :: rest =>
    targetSecretExistsLoop name (if es.Name == name then true else acc) rest

/-- The flag `required` in the words of the specification: some listed pod has an
imagePullSecret named `TriggerSecretName`. -/
def requiredOf (r : ImagePullExternalSecretReconciler σ) (pods : List Pod) : Bool :=
  pods.any (fun pod => pod.Spec.ImagePullSecrets.any (fun obj => obj.Name == r.TriggerSecretName))

/-- The flag `exists` in the words of the specification: some listed ExternalSecret is
named as the template. -/
def existsOf (r : ImagePullExternalSecretReconciler σ) (esList : List ExternalSecret) : Bool :=
  esList.any (fun es => es.Name == r.DesiredExternalSecret.Name)

/-- The method `reconcileExternalSecrets`. -/
def reconcileExternalSecrets (r : ImagePullExternalSecretReconciler σ) (s : σ)
    (namespace_ : String) : Outcome σ (ImagePullExternalSecretReconciler σ) :=
  match r.Client.ListPods s namespace_ with
  | (.error err, s1) =>
    ⟨some (errListingPods namespace_ err), s1, [.ListPods namespace_], r⟩
  | (.ok pods, s1) =>
    let targetSecretRequired := ContainsFunc pods r.usesTargetSecret
    match r.Client.ListExternalSecrets s1 namespace_ with
    | (.error err, s2) =>
      ⟨some (errListingSecrets namespace_ err), s2,
        [.ListPods namespace_, .ListExternalSecrets namespace_], r⟩
    | (.ok esList, s2) =>
      let targetSecretExists := targetSecretExistsLoop r.DesiredExternalSecret.Name false esList
      if targetSecretRequired && !targetSecretExists then
        let desiredExternalSecret := r.DesiredExternalSecret
        let desiredExternalSecret := desiredExternalSecret.SetNamespace namespace_
        match r.Client.Create s2 desiredExternalSecret with
        | (some err, s3) =>
          ⟨some (errCreating err), s3,
            [.ListPods namespace_, .ListExternalSecrets namespace_,
              .Create desiredExternalSecret], r⟩
        | (none, s3) =>
          ⟨none, s3,
            [.ListPods namespace_, .ListExternalSecrets namespace_,
              .Create desiredExternalSecret], r⟩
      else if !targetSecretRequired && targetSecretExists then
        let desiredExternalSecret := r.DesiredExternalSecret
        let desiredExternalSecret := desiredExternalSecret.SetNamespace namespace_
        match r.Client.Delete s2 desiredExternalSecret with
        | (some err, s3) =>
          ⟨some (errDeleting err), s3,
            [.ListPods namespace_, .ListExternalSecrets namespace_,
              .Delete desiredExternalSecret], r⟩
        | (none, s3) =>
          ⟨none, s3,
            [.ListPods namespace_, .ListExternalSecrets namespace_,
              .Delete desiredExternalSecret], r⟩
      else
        ⟨none, s2, [.ListPods namespace_, .ListExternalSecrets namespace_], r⟩

/-- The method `Reconcile`. The returned `ctrl.Result` is `ctrl.Result{}` on every
path, so the outcome records the error alone. -/
def Reconcile (r : ImagePullExternalSecretReconciler σ) (s : σ) (req : Request) :
    Outcome σ (ImagePullExternalSecretReconciler σ) :=
  match r.Client.Get s req.NamespacedName with
  | (.error err, s1) =>
    if IsNotFound err then
      let o := r.reconcileExternalSecrets s1 req.Namespace
      match o.err with
      | some err => ⟨some err, o.state, .Get req.NamespacedName :: o.calls, o.receiver⟩
      | none => ⟨none, o.state, .Get req.NamespacedName :: o.calls, o.receiver⟩
    else
      ⟨some err, s1, [.Get req.NamespacedName], r⟩
  | (.ok pod, s1) =>
    if !IsZero pod.ObjectMeta.DeletionTimestamp then
      ⟨none, s1, [.Get req.NamespacedName], r⟩
    else if ContainsFunc pod.Spec.ImagePullSecrets r.matchesTargetSecretName then
      let o := r.reconcileExternalSecrets s1 pod.Namespace
      match o.err with
      | some err => ⟨some err, o.state, .Get req.NamespacedName :: o.calls, o.receiver⟩
      | none => ⟨none, o.state, .Get req.NamespacedName :: o.calls, o.receiver⟩
    else
      ⟨none, s1, [.Get req.NamespacedName], r⟩

end ImagePullExternalSecretReconciler

/-! ## pod_controller.go -/

/-- The type `ImagePullSecretReconciler` (the unused `Scheme` left out). -/
structure ImagePullSecretReconciler (σ : Type) where
  Client : Client σ
  TriggerSecretName : String
  DesiredImagePullSecret : ExternalSecret

namespace ImagePullSecretReconciler

variable {σ : Type}

/-- The closure `matchesTargetSecretName` of `Reconcile`. -/
def matchesTargetSecretName (r : ImagePullSecretReconciler σ)
    (obj : LocalObjectReference) : Bool :=
  obj.Name == r.TriggerSecretName

/-- The loop of the closure `usesTargetSecret`: return true at the first match. -/
def usesTargetSecretLoop (trigger : String) : List LocalObjectReference → Bool
  | [] => false
  | obj :: rest => if obj.Name == trigger then true else usesTargetSecretLoop trigger rest

/-- The closure `usesTargetSecret` of `reconcileExternalSecrets`. -/
def usesTargetSecret (r : ImagePullSecretReconciler σ) (pod : Pod) : Bool :=
  usesTargetSecretLoop r.TriggerSecretName pod.Spec.ImagePullSecrets

/-- The loop computing `targetSecretExists`: it runs over the whole list of Secrets and
sets the flag at every Secret named `TriggerSecretName`. -/
def targetSecretExistsLoop (name : String) : Bool → List Secret → Bool
  | acc, [] => acc
  | acc, secret :: rest =>
    targetSecretExistsLoop name (if secret.Name == name then true else acc) rest

/-- The method `reconcileExternalSecrets`. -/
def reconcileExternalSecrets (r : ImagePullSecretReconciler σ) (s : σ)
    (namespace_ : String) : Outcome σ (ImagePullSecretReconciler σ) :=
  match r.Client.ListPods s namespace_ with
  | (.error err, s1) =>
    ⟨some (errListingPods namespace_ err), s1, [.ListPods namespace_], r⟩
  | (.ok pods, s1) =>
    let targetSecretRequired := ContainsFunc pods r.usesTargetSecret
    match r.Client.ListSecrets s1 namespace_ with
    | (.error err, s2) =>
      ⟨some (errListingSecrets namespace_ err), s2,
        [.ListPods namespace_, .ListSecrets namespace_], r⟩
    | (.ok secrets, s2) =>
      let targetSecretExists := targetSecretExistsLoop r.TriggerSecretName false secrets
      if targetSecretRequired && !targetSecretExists then
        let desiredExternalSecret := r.DesiredImagePullSecret
        let desiredExternalSecret := desiredExternalSecret.SetNamespace namespace_
        match r.Client.Create s2 desiredExternalSecret with
        | (some err, s3) =>
          ⟨some (errCreating err), s3,
            [.ListPods namespace_, .ListSecrets namespace_, .Create desiredExternalSecret], r⟩
        | (none, s3) =>
          ⟨none, s3,
            [.ListPods namespace_, .ListSecrets namespace_, .Create desiredExternalSecret], r⟩
      else if !targetSecretRequired && targetSecretExists then
        let desiredExternalSecret := r.DesiredImagePullSecret
        let desiredExternalSecret := desiredExternalSecret.SetNamespace namespace_
        match r.Client.Delete s2 desiredExternalSecret with
        | (some err, s3) =>
          ⟨some (errDeleting err), s3,
            [.ListPods namespace_, .ListSecrets namespace_, .Delete desiredExternalSecret], r⟩
        | (none, s3) =>
          ⟨none, s3,
            [.ListPods namespace_, .ListSecrets namespace_, .Delete desiredExternalSecret], r⟩
      else
        ⟨none, s2, [.ListPods namespace_, .ListSecrets namespace_], r⟩

/-- The method `Reconcile`. `pod` is declared with its zero value and filled by a
successful `Get`; a not-found error does not return, so the statements after the guard
read the zero value. -/
def Reconcile (r : ImagePullSecretReconciler σ) (s : σ) (req : Request) :
    Outcome σ (ImagePullSecretReconciler σ) :=
  match r.Client.Get s req.NamespacedName with
  | (got, s1) =>
    let pod : Pod := match got with
      | .ok p => p
      | .error _ => {}
    let err : Option GoError := match got with
      | .ok _ => none
      | .error e => some e
    match err with
    | some e =>
      if !IsNotFound e then
        ⟨some e, s1, [.Get req.NamespacedName], r⟩
      else if !IsZero pod.ObjectMeta.DeletionTimestamp then
        ⟨none, s1, [.Get req.NamespacedName], r⟩
      else if ContainsFunc pod.Spec.ImagePullSecrets r.matchesTargetSecretName then
        let o := r.reconcileExternalSecrets s1 pod.Namespace
        match o.err with
        | some err => ⟨some err, o.state, .Get req.NamespacedName :: o.calls, o.receiver⟩
        | none => ⟨none, o.state, .Get req.NamespacedName :: o.calls, o.receiver⟩
      else
        ⟨none, s1, [.Get req.NamespacedName], r⟩
    | none =>
      if !IsZero pod.ObjectMeta.DeletionTimestamp then
        ⟨none, s1, [.Get req.NamespacedName], r⟩
      else if ContainsFunc pod.Spec.ImagePullSecrets r.matchesTargetSecretName then
        let o := r.reconcileExternalSecrets s1 pod.Namespace
        match o.err with
        | some err => ⟨some err, o.state, .Get req.NamespacedName :: o.calls, o.receiver⟩
        | none => ⟨none, o.state, .Get req.NamespacedName :: o.calls, o.receiver⟩
      else
        ⟨none, s1, [.Get req.NamespacedName], r⟩

end ImagePullSecretReconciler

/-! ## A store behind the client

The cluster API as a value: the pods, ExternalSecrets and Secrets it holds. Reads return
what the store holds. `Create` and `Delete` can fail: `writeFaults` schedules, call by
call, the error a write meets (`none`: the write goes through); a write that goes
through takes effect. -/

/-- The objects held by the cluster, and the schedule of write failures. -/
structure Store where
  pods : List Pod := []
  externalSecrets : List ExternalSecret := []
  secrets : List Secret := []
  writeFaults : List (Option GoError) := []
  deriving DecidableEq, Repr

namespace Store

/-- The object `obj` has the key (namespace, name) of `key`. -/
def sameKey (key obj : ExternalSecret) : Bool :=
  obj.Namespace == key.Namespace && obj.Name == key.Name

/-- Read a pod by key; not-found when the store has none. -/
def get (s : Store) (key : NamespacedName) : Except GoError Pod × Store :=
  match s.pods.find? (fun p => p.Namespace == key.Namespace && p.Name == key.Name) with
  | some p => (.ok p, s)
  | none => (.error (.status .NotFound ("pods \"" ++ key.Name ++ "\" not found")), s)

/-- The pods of a namespace. -/
def listPods (s : Store) (namespace_ : String) : Except GoError (List Pod) × Store :=
  (.ok (s.pods.filter (fun p => p.Namespace == namespace_)), s)

/-- The ExternalSecrets of a namespace. -/
def listExternalSecrets (s : Store) (namespace_ : String) :
    Except GoError (List ExternalSecret) × Store :=
  (.ok (s.externalSecrets.filter (fun es => es.Namespace == namespace_)), s)

/-- The Secrets of a namespace. -/
def listSecrets (s : Store) (namespace_ : String) : Except GoError (List Secret) × Store :=
  (.ok (s.secrets.filter (fun x => x.ObjectMeta.Namespace == namespace_)), s)

/-- Create an ExternalSecret: the scheduled fault if any, already-exists when the key is
taken, otherwise the object is added. -/
def create (s : Store) (obj : ExternalSecret) : Option GoError × Store :=
  match s.writeFaults with
  | some e :: rest => (some e, { s with writeFaults := rest })
  | faults =>
    if s.externalSecrets.any (sameKey obj) then
      (some (.status .AlreadyExists ("externalsecrets \"" ++ obj.Name ++ "\" already exists")),
        { s with writeFaults := faults.tail })
    else
      (none, { s with externalSecrets := s.externalSecrets ++ [obj], writeFaults := faults.tail })

/-- Delete an ExternalSecret by key: the scheduled fault if any, not-found when the key
is free, otherwise the object is removed. -/
def delete (s : Store) (obj : ExternalSecret) : Option GoError × Store :=
  match s.writeFaults with
  | some e :: rest => (some e, { s with writeFaults := rest })
  | faults =>
    if s.externalSecrets.any (sameKey obj) then
      (none, { s with externalSecrets := s.externalSecrets.filter (fun es => !sameKey obj es),
                      writeFaults := faults.tail })
    else
      (some (.status .NotFound ("externalsecrets \"" ++ obj.Name ++ "\" not found")),
        { s with writeFaults := faults.tail })

/-- The client reading and writing the store. -/
def client : Client Store where
  Get := get
  ListPods := listPods
  ListExternalSecrets := listExternalSecrets
  ListSecrets := listSecrets
  Create := create
  Delete := delete

/-- Some pod of namespace `namespace_` has an imagePullSecret named `trigger`, whatever
its deletion timestamp. -/
def required (s : Store) (trigger namespace_ : String) : Bool :=
  s.pods.any (fun p => p.Namespace == namespace_ &&
    p.Spec.ImagePullSecrets.any (fun obj => obj.Name == trigger))

/-- Some pod of namespace `namespace_` has an imagePullSecret named `trigger` and a zero
deletion timestamp. -/
def requiredLive (s : Store) (trigger namespace_ : String) : Bool :=
  s.pods.any (fun p => p.Namespace == namespace_ &&
    p.Spec.ImagePullSecrets.any (fun obj => obj.Name == trigger) &&
    IsZero p.ObjectMeta.DeletionTimestamp)

/-- An ExternalSecret named `name` is present in namespace `namespace_`. -/
def present (s : Store) (name namespace_ : String) : Bool :=
  s.externalSecrets.any (fun es => es.Namespace == namespace_ && es.Name == name)

end Store

/-- The ExternalSecret reconciler wired to the store, as `main` wires it to the cluster. -/
def storeReconciler (trigger : String) (desired : ExternalSecret) :
    ImagePullExternalSecretReconciler Store :=
  { Client := Store.client, TriggerSecretName := trigger, DesiredExternalSecret := desired }

/-- The pod reconciler wired to the store. -/
def storePodReconciler (trigger : String) (desired : ExternalSecret) :
    ImagePullSecretReconciler Store :=
  { Client := Store.client, TriggerSecretName := trigger, DesiredImagePullSecret := desired }

/-! ## The scenario of the tests

Trigger name `test-secret`, template named `test-es`, the pod `test-pod` of namespace
`default` with the imagePullSecret `test-secret`. -/

/-- The template of `pod_controller_test.go`. -/
def testTemplate : ExternalSecret :=
  { ObjectMeta := { Name := "test-es" },
    Spec := { RefreshInterval := "1h", SecretStoreRefKind := "ClusterSecretStore",
              SecretStoreRefName := "test-sm", TargetName := "test-secret",
              TargetCreationPolicy := "Merge",
              Data := [("test-key", "test", "test-property")] } }

/-- The pod of the tests. -/
def testPod : Pod :=
  { ObjectMeta := { Namespace := "default", Name := "test-pod" },
    Spec := { ImagePullSecrets := [{ Name := "test-secret" }],
              Containers := [{ Name := "test-container", Image := "busybox:latest" }] } }

/-- The request for the pod of the tests. -/
def testRequest : Request := { NamespacedName := { Namespace := "default", Name := "test-pod" } }

/-- The ExternalSecret reconciler of the tests. -/
def testReconciler : ImagePullExternalSecretReconciler Store :=
  storeReconciler "test-secret" testTemplate

/-- The pod reconciler of the tests. -/
def testPodReconciler : ImagePullSecretReconciler Store :=
  storePodReconciler "test-secret" testTemplate

/-- The cluster after the pod of the tests was created. -/
def storeWithPod : Store := { pods := [testPod] }

/-- The cluster after the pod of the tests was created, whose next write is scheduled
to fail with an already-exists error. -/
def storeCreateFails : Store :=
  { pods := [testPod],
    writeFaults := [some (.status .AlreadyExists "externalsecrets \"test-es\" already exists")] }

/-- A client whose List of pods times out, over the store. -/
def podListTimeoutClient : Client Store :=
  { Store.client with
    ListPods := fun s _ => (.error (.status .Timeout "the server was unable to respond"), s) }

/-- The ExternalSecret reconciler of the tests on the client whose List of pods times out. -/
def timeoutReconciler : ImagePullExternalSecretReconciler Store :=
  { Client := podListTimeoutClient, TriggerSecretName := "test-secret",
    DesiredExternalSecret := testTemplate }

/-- A pod of `default` without imagePullSecrets. -/
def plainPod : Pod :=
  { ObjectMeta := { Namespace := "default", Name := "test-pod" },
    Spec := { Containers := [{ Name := "test-container", Image := "busybox:latest" }] } }

/-- A pod of `default` with the imagePullSecret `test-secret`, whose deletion has begun
(DeletionTimestamp set). -/
def terminatingPod : Pod :=
  { ObjectMeta := { Namespace := "default", Name := "old-pod", DeletionTimestamp := some 5 },
    Spec := { ImagePullSecrets := [{ Name := "test-secret" }] } }

/-- A cluster holding the pod without imagePullSecrets and the ExternalSecret `test-es`. -/
def storeStale : Store :=
  { pods := [plainPod], externalSecrets := [testTemplate.SetNamespace "default"] }

/-- A cluster holding the terminating pod alone. -/
def storeTerminating : Store := { pods := [terminatingPod] }

/-- The cluster after the pod of the tests was deleted, the ExternalSecret `test-es` and
the Secret `test-secret` still present in `default`. -/
def storeAfterPodDeleted : Store :=
  { externalSecrets := [testTemplate.SetNamespace "default"],
    secrets := [{ ObjectMeta := { Namespace := "default", Name := "test-secret" } }] }

end Controller

/-! ## Auxiliary facts on the loops -/

namespace Controller

theorem ContainsFunc_eq_any {α : Type} (xs : List α) (f : α → Bool) :
    ContainsFunc xs f = xs.any f := by
  induction xs with
  | nil => rfl
  | cons x xs ih =>
    simp only [ContainsFunc, List.any_cons, ih]
    cases f x <;> simp

namespace ImagePullExternalSecretReconciler

variable {σ : Type}

theorem usesTargetSecretLoop_eq_any (trigger : String) (refs : List LocalObjectReference) :
    usesTargetSecretLoop trigger refs = refs.any (fun obj => obj.Name == trigger) := by
  induction refs with
  | nil => rfl
  | cons x xs ih =>
    simp only [usesTargetSecretLoop, List.any_cons, ih]
    cases (x.Name == trigger) <;> simp

theorem targetSecretExistsLoop_eq_any (name : String) (acc : Bool) (l : List ExternalSecret) :
    targetSecretExistsLoop name acc l = (acc || l.any (fun es => es.Name == name)) := by
  induction l generalizing acc with
  | nil => simp [targetSecretExistsLoop]
  | cons x xs ih =>
    simp only [targetSecretExistsLoop, List.any_cons, ih]
    cases (x.Name == name) <;> cases acc <;> simp

theorem targetSecretRequired_eq (r : ImagePullExternalSecretReconciler σ) (pods : List Pod) :
    ContainsFunc pods r.usesTargetSecret = r.requiredOf pods := by
  rw [ContainsFunc_eq_any, requiredOf]
  congr 1
  funext pod
  exact usesTargetSecretLoop_eq_any _ _

theorem targetSecretExists_eq (r : ImagePullExternalSecretReconciler σ)
    (esList : List ExternalSecret) :
    targetSecretExistsLoop r.DesiredExternalSecret.Name false esList = r.existsOf esList := by
  rw [targetSecretExistsLoop_eq_any, existsOf, Bool.false_or]

theorem reconcile_listPods_error (r : ImagePullExternalSecretReconciler σ) (s s1 : σ)
    (ns : String) (e : GoError) (h : r.Client.ListPods s ns = (.error e, s1)) :
    r.reconcileExternalSecrets s ns = ⟨some (errListingPods ns e), s1, [.ListPods ns], r⟩ := by
  simp only [reconcileExternalSecrets, h]

theorem reconcile_listExternalSecrets_error (r : ImagePullExternalSecretReconciler σ)
    (s s1 s2 : σ) (ns : String) (pods : List Pod) (e : GoError)
    (hp : r.Client.ListPods s ns = (.ok pods, s1))
    (h : r.Client.ListExternalSecrets s1 ns = (.error e, s2)) :
    r.reconcileExternalSecrets s ns =
      ⟨some (errListingSecrets ns e), s2, [.ListPods ns, .ListExternalSecrets ns], r⟩ := by
  simp only [reconcileExternalSecrets, hp, h]

theorem reconcile_create (r : ImagePullExternalSecretReconciler σ)
    (s s1 s2 : σ) (ns : String) (pods : List Pod) (esList : List ExternalSecret)
    (hp : r.Client.ListPods s ns = (.ok pods, s1))
    (he : r.Client.ListExternalSecrets s1 ns = (.ok esList, s2))
    (hreq : r.requiredOf pods = true) (hex : r.existsOf esList = false) :
    r.reconcileExternalSecrets s ns =
      ⟨(r.Client.Create s2 (r.DesiredExternalSecret.SetNamespace ns)).1.map errCreating,
        (r.Client.Create s2 (r.DesiredExternalSecret.SetNamespace ns)).2,
        [.ListPods ns, .ListExternalSecrets ns,
          .Create (r.DesiredExternalSecret.SetNamespace ns)], r⟩ := by
  simp only [reconcileExternalSecrets, hp, he, targetSecretRequired_eq, targetSecretExists_eq,
    hreq, hex]
  rcases hc : r.Client.Create s2 (r.DesiredExternalSecret.SetNamespace ns) with ⟨_ | e, s3⟩ <;>
    simp

theorem reconcile_delete (r : ImagePullExternalSecretReconciler σ)
    (s s1 s2 : σ) (ns : String) (pods : List Pod) (esList : List ExternalSecret)
    (hp : r.Client.ListPods s ns = (.ok pods, s1))
    (he : r.Client.ListExternalSecrets s1 ns = (.ok esList, s2))
    (hreq : r.requiredOf pods = false) (hex : r.existsOf esList = true) :
    r.reconcileExternalSecrets s ns =
      ⟨(r.Client.Delete s2 (r.DesiredExternalSecret.SetNamespace ns)).1.map errDeleting,
        (r.Client.Delete s2 (r.DesiredExternalSecret.SetNamespace ns)).2,
        [.ListPods ns, .ListExternalSecrets ns,
          .Delete (r.DesiredExternalSecret.SetNamespace ns)], r⟩ := by
  simp only [reconcileExternalSecrets, hp, he, targetSecretRequired_eq, targetSecretExists_eq,
    hreq, hex]
  rcases hc : r.Client.Delete s2 (r.DesiredExternalSecret.SetNamespace ns) with ⟨_ | e, s3⟩ <;>
    simp

theorem reconcile_noop (r : ImagePullExternalSecretReconciler σ)
    (s s1 s2 : σ) (ns : String) (pods : List Pod) (esList : List ExternalSecret)
    (hp : r.Client.ListPods s ns = (.ok pods, s1))
    (he : r.Client.ListExternalSecrets s1 ns = (.ok esList, s2))
    (hagree : r.requiredOf pods = r.existsOf esList) :
    r.reconcileExternalSecrets s ns =
      ⟨none, s2, [.ListPods ns, .ListExternalSecrets ns], r⟩ := by
  simp only [reconcileExternalSecrets, hp, he, targetSecretRequired_eq, targetSecretExists_eq,
    hagree]
  cases r.existsOf esList <;> simp

theorem Reconcile_notFound (r : ImagePullExternalSecretReconciler σ) (s s1 : σ)
    (req : Request) (e : GoError)
    (hget : r.Client.Get s req.NamespacedName = (.error e, s1)) (hnf : IsNotFound e = true) :
    r.Reconcile s req =
      ⟨(r.reconcileExternalSecrets s1 req.Namespace).err,
        (r.reconcileExternalSecrets s1 req.Namespace).state,
        .Get req.NamespacedName :: (r.reconcileExternalSecrets s1 req.Namespace).calls,
        (r.reconcileExternalSecrets s1 req.Namespace).receiver⟩ := by
  simp only [Reconcile, hget, hnf, if_true]
  cases (r.reconcileExternalSecrets s1 req.Namespace).err <;> rfl

theorem Reconcile_getError (r : ImagePullExternalSecretReconciler σ) (s s1 : σ)
    (req : Request) (e : GoError)
    (hget : r.Client.Get s req.NamespacedName = (.error e, s1)) (hnf : IsNotFound e = false) :
    r.Reconcile s req = ⟨some e, s1, [.Get req.NamespacedName], r⟩ := by
  simp [Reconcile, hget, hnf]

theorem Reconcile_relevant (r : ImagePullExternalSecretReconciler σ) (s s1 : σ)
    (req : Request) (pod : Pod)
    (hget : r.Client.Get s req.NamespacedName = (.ok pod, s1))
    (hz : IsZero pod.ObjectMeta.DeletionTimestamp = true)
    (hu : pod.Spec.ImagePullSecrets.any (fun obj => obj.Name == r.TriggerSecretName) = true) :
    r.Reconcile s req =
      ⟨(r.reconcileExternalSecrets s1 pod.Namespace).err,
        (r.reconcileExternalSecrets s1 pod.Namespace).state,
        .Get req.NamespacedName :: (r.reconcileExternalSecrets s1 pod.Namespace).calls,
        (r.reconcileExternalSecrets s1 pod.Namespace).receiver⟩ := by
  have hu2 : ContainsFunc pod.Spec.ImagePullSecrets r.matchesTargetSecretName = true := by
    rw [ContainsFunc_eq_any]; exact hu
  simp only [Reconcile, hget, hz, hu2, Bool.not_true, if_true]
  cases (r.reconcileExternalSecrets s1 pod.Namespace).err <;> simp

theorem Reconcile_irrelevant (r : ImagePullExternalSecretReconciler σ) (s s1 : σ)
    (req : Request) (pod : Pod)
    (hget : r.Client.Get s req.NamespacedName = (.ok pod, s1))
    (h : IsZero pod.ObjectMeta.DeletionTimestamp = false ∨
      pod.Spec.ImagePullSecrets.any (fun obj => obj.Name == r.TriggerSecretName) = false) :
    r.Reconcile s req = ⟨none, s1, [.Get req.NamespacedName], r⟩ := by
  rcases h with hz | hu
  · simp [Reconcile, hget, hz]
  · have hu2 : ContainsFunc pod.Spec.ImagePullSecrets r.matchesTargetSecretName = false := by
      rw [ContainsFunc_eq_any]; exact hu
    cases hz : IsZero pod.ObjectMeta.DeletionTimestamp <;> simp [Reconcile, hget, hz, hu2]

/-- Every run of `reconcileExternalSecrets` starts by listing the pods of the namespace,
issues at most one write, never issues `Get`, and returns its receiver. -/
theorem reconcile_shape (r : ImagePullExternalSecretReconciler σ) (s : σ) (ns : String) :
    (∃ rest, (r.reconcileExternalSecrets s ns).calls = .ListPods ns :: rest ∧
      rest.length ≤ 2 ∧
      ∀ c ∈ rest, c = .ListExternalSecrets ns ∨
        c = .Create (r.DesiredExternalSecret.SetNamespace ns) ∨
        c = .Delete (r.DesiredExternalSecret.SetNamespace ns)) ∧
    (r.reconcileExternalSecrets s ns).receiver = r := by
  rcases hp : r.Client.ListPods s ns with ⟨e | pods, s1⟩
  · rw [reconcile_listPods_error r s s1 ns e hp]
    exact ⟨⟨[], rfl, by simp, by simp⟩, rfl⟩
  · rcases he : r.Client.ListExternalSecrets s1 ns with ⟨e | esList, s2⟩
    · rw [reconcile_listExternalSecrets_error r s s1 s2 ns pods e hp he]
      exact ⟨⟨_, rfl, by simp, by simp⟩, rfl⟩
    · cases hreq : r.requiredOf pods <;> cases hex : r.existsOf esList
      · rw [reconcile_noop r s s1 s2 ns pods esList hp he (by rw [hreq, hex])]
        exact ⟨⟨_, rfl, by simp, by simp⟩, rfl⟩
      · rw [reconcile_delete r s s1 s2 ns pods esList hp he hreq hex]
        exact ⟨⟨_, rfl, by simp, by simp⟩, rfl⟩
      · rw [reconcile_create r s s1 s2 ns pods esList hp he hreq hex]
        exact ⟨⟨_, rfl, by simp, by simp⟩, rfl⟩
      · rw [reconcile_noop r s s1 s2 ns pods esList hp he (by rw [hreq, hex])]
        exact ⟨⟨_, rfl, by simp, by simp⟩, rfl⟩

end ImagePullExternalSecretReconciler

namespace ImagePullSecretReconciler

variable {σ : Type}

theorem podReconcile_relevant (r : ImagePullSecretReconciler σ) (s s1 : σ)
    (req : Request) (pod : Pod)
    (hget : r.Client.Get s req.NamespacedName = (.ok pod, s1))
    (hz : IsZero pod.ObjectMeta.DeletionTimestamp = true)
    (hu : pod.Spec.ImagePullSecrets.any (fun obj => obj.Name == r.TriggerSecretName) = true) :
    r.Reconcile s req =
      ⟨(r.reconcileExternalSecrets s1 pod.Namespace).err,
        (r.reconcileExternalSecrets s1 pod.Namespace).state,
        .Get req.NamespacedName :: (r.reconcileExternalSecrets s1 pod.Namespace).calls,
        (r.reconcileExternalSecrets s1 pod.Namespace).receiver⟩ := by
  have hu2 : ContainsFunc pod.Spec.ImagePullSecrets r.matchesTargetSecretName = true := by
    rw [ContainsFunc_eq_any]; exact hu
  simp only [Reconcile, hget, hz, hu2, Bool.not_true, if_true]
  cases (r.reconcileExternalSecrets s1 pod.Namespace).err <;> simp

theorem podReconcile_irrelevant (r : ImagePullSecretReconciler σ) (s s1 : σ)
    (req : Request) (pod : Pod)
    (hget : r.Client.Get s req.NamespacedName = (.ok pod, s1))
    (h : IsZero pod.ObjectMeta.DeletionTimestamp = false ∨
      pod.Spec.ImagePullSecrets.any (fun obj => obj.Name == r.TriggerSecretName) = false) :
    r.Reconcile s req = ⟨none, s1, [.Get req.NamespacedName], r⟩ := by
  rcases h with hz | hu
  · simp [Reconcile, hget, hz]
  · have hu2 : ContainsFunc pod.Spec.ImagePullSecrets r.matchesTargetSecretName = false := by
      rw [ContainsFunc_eq_any]; exact hu
    cases hz : IsZero pod.ObjectMeta.DeletionTimestamp <;> simp [Reconcile, hget, hz, hu2]

/-- A failed `Get` with a not-found error leaves `pod` at its zero value: `Reconcile`
returns success after the `Get`, without reconciling the namespace. -/
theorem podReconcile_deleted (r : ImagePullSecretReconciler σ) (s s1 : σ)
    (req : Request) (e : GoError)
    (hget : r.Client.Get s req.NamespacedName = (.error e, s1)) (hnf : IsNotFound e = true) :
    r.Reconcile s req = ⟨none, s1, [.Get req.NamespacedName], r⟩ := by
  simp [Reconcile, hget, hnf, IsZero, ContainsFunc]

theorem podReconcile_head (r : ImagePullSecretReconciler σ) (s : σ) (ns : String) :
    ∃ rest, (r.reconcileExternalSecrets s ns).calls = .ListPods ns :: rest := by
  unfold reconcileExternalSecrets
  split
  · exact ⟨_, rfl⟩
  · split
    · exact ⟨_, rfl⟩
    · dsimp only
      split
      · split <;> exact ⟨_, rfl⟩
      · split
        · split <;> exact ⟨_, rfl⟩
        · exact ⟨_, rfl⟩

end ImagePullSecretReconciler

/-- An error returned by `reconcileExternalSecrets` is a plain string error. -/
theorem ImagePullExternalSecretReconciler.reconcile_err_plain {σ : Type}
    (r : ImagePullExternalSecretReconciler σ) (s : σ) (ns : String) (e : GoError)
    (h : (r.reconcileExternalSecrets s ns).err = some e) : ∃ m, e = .errorString m := by
  rcases hp : r.Client.ListPods s ns with ⟨e1 | pods, s1⟩
  · rw [reconcile_listPods_error r s s1 ns e1 hp] at h
    exact ⟨_, (Option.some.inj h).symm⟩
  · rcases he : r.Client.ListExternalSecrets s1 ns with ⟨e2 | esList, s2⟩
    · rw [reconcile_listExternalSecrets_error r s s1 s2 ns pods e2 hp he] at h
      exact ⟨_, (Option.some.inj h).symm⟩
    · cases hreq : r.requiredOf pods <;> cases hex : r.existsOf esList
      · rw [reconcile_noop r s s1 s2 ns pods esList hp he (by rw [hreq, hex])] at h
        cases h
      · rw [reconcile_delete r s s1 s2 ns pods esList hp he hreq hex] at h
        rcases hd : (r.Client.Delete s2 (r.DesiredExternalSecret.SetNamespace ns)).1 with _ | e3
        · simp [hd] at h
        · simp only [hd, Option.map_some'] at h
          exact ⟨_, (Option.some.inj h).symm⟩
      · rw [reconcile_create r s s1 s2 ns pods esList hp he hreq hex] at h
        rcases hd : (r.Client.Create s2 (r.DesiredExternalSecret.SetNamespace ns)).1 with _ | e3
        · simp [hd] at h
        · simp only [hd, Option.map_some'] at h
          exact ⟨_, (Option.some.inj h).symm⟩
      · rw [reconcile_noop r s s1 s2 ns pods esList hp he (by rw [hreq, hex])] at h
        cases h

/-- The calls of `Reconcile`: the `Get` alone, or the `Get` followed by the calls of one
namespace reconciliation, whose error it returns. -/
theorem ImagePullExternalSecretReconciler.Reconcile_cases {σ : Type}
    (r : ImagePullExternalSecretReconciler σ) (s : σ) (req : Request) :
    ((r.Reconcile s req).calls = [.Get req.NamespacedName]) ∨
    (∃ s1 ns, (r.Reconcile s req).calls =
        .Get req.NamespacedName :: (r.reconcileExternalSecrets s1 ns).calls ∧
      (r.Reconcile s req).err = (r.reconcileExternalSecrets s1 ns).err) := by
  rcases hget : r.Client.Get s req.NamespacedName with ⟨e | pod, s1⟩
  · cases hnf : IsNotFound e
    · rw [Reconcile_getError r s s1 req e hget hnf]
      exact Or.inl rfl
    · rw [Reconcile_notFound r s s1 req e hget hnf]
      exact Or.inr ⟨s1, req.Namespace, rfl, rfl⟩
  · cases hz : IsZero pod.ObjectMeta.DeletionTimestamp
    · rw [Reconcile_irrelevant r s s1 req pod hget (Or.inl hz)]
      exact Or.inl rfl
    · cases hu : pod.Spec.ImagePullSecrets.any (fun obj => obj.Name == r.TriggerSecretName)
      · rw [Reconcile_irrelevant r s s1 req pod hget (Or.inr hu)]
        exact Or.inl rfl
      · rw [Reconcile_relevant r s s1 req pod hget hz hu]
        exact Or.inr ⟨s1, pod.Namespace, rfl, rfl⟩

/-- The four possible call sequences of `reconcileExternalSecrets`. -/
theorem ImagePullExternalSecretReconciler.reconcile_calls_cases {σ : Type}
    (r : ImagePullExternalSecretReconciler σ) (s : σ) (ns : String) :
    (r.reconcileExternalSecrets s ns).calls = [.ListPods ns] ∨
    (r.reconcileExternalSecrets s ns).calls = [.ListPods ns, .ListExternalSecrets ns] ∨
    (r.reconcileExternalSecrets s ns).calls = [.ListPods ns, .ListExternalSecrets ns,
      .Create (r.DesiredExternalSecret.SetNamespace ns)] ∨
    (r.reconcileExternalSecrets s ns).calls = [.ListPods ns, .ListExternalSecrets ns,
      .Delete (r.DesiredExternalSecret.SetNamespace ns)] := by
  rcases hp : r.Client.ListPods s ns with ⟨e | pods, s1⟩
  · rw [reconcile_listPods_error r s s1 ns e hp]
    exact Or.inl rfl
  · rcases he : r.Client.ListExternalSecrets s1 ns with ⟨e | esList, s2⟩
    · rw [reconcile_listExternalSecrets_error r s s1 s2 ns pods e hp he]
      exact Or.inr (Or.inl rfl)
    · cases hreq : r.requiredOf pods <;> cases hex : r.existsOf esList
      · rw [reconcile_noop r s s1 s2 ns pods esList hp he (by rw [hreq, hex])]
        exact Or.inr (Or.inl rfl)
      · rw [reconcile_delete r s s1 s2 ns pods esList hp he hreq hex]
        exact Or.inr (Or.inr (Or.inr rfl))
      · rw [reconcile_create r s s1 s2 ns pods esList hp he hreq hex]
        exact Or.inr (Or.inr (Or.inl rfl))
      · rw [reconcile_noop r s s1 s2 ns pods esList hp he (by rw [hreq, hex])]
        exact Or.inr (Or.inl rfl)

/-! ## The policy table and the gate -/

/-- C1: in `reconcileExternalSecrets` of the ExternalSecret reconciler, once both lists
are returned, exactly one Create and no Delete is issued when required and not exists,
exactly one Delete and no Create when not required and exists, no Create or Delete when
required and exists agree; at most one mutating call is issued in every case. -/
theorem reconcileExternalSecrets_policy_table {σ : Type}
    (r : ImagePullExternalSecretReconciler σ) (s s1 s2 : σ) (ns : String)
    (pods : List Pod) (esList : List ExternalSecret)
    (hpods : r.Client.ListPods s ns = (.ok pods, s1))
    (hes : r.Client.ListExternalSecrets s1 ns = (.ok esList, s2)) :
    (r.requiredOf pods = true ∧ r.existsOf esList = false →
      (r.reconcileExternalSecrets s ns).calls.countP Call.isCreate = 1 ∧
      (r.reconcileExternalSecrets s ns).calls.countP Call.isDelete = 0) ∧
    (r.requiredOf pods = false ∧ r.existsOf esList = true →
      (r.reconcileExternalSecrets s ns).calls.countP Call.isDelete = 1 ∧
      (r.reconcileExternalSecrets s ns).calls.countP Call.isCreate = 0) ∧
    (r.requiredOf pods = r.existsOf esList →
      (r.reconcileExternalSecrets s ns).calls.countP Call.isMutation = 0) ∧
    (r.reconcileExternalSecrets s ns).calls.countP Call.isMutation ≤ 1 := by
  refine ⟨?_, ?_, ?_, ?_⟩
  · rintro ⟨hreq, hex⟩
    rw [ImagePullExternalSecretReconciler.reconcile_create r s s1 s2 ns pods esList hpods hes
      hreq hex]
    simp [List.countP_cons, Call.isCreate, Call.isDelete]
  · rintro ⟨hreq, hex⟩
    rw [ImagePullExternalSecretReconciler.reconcile_delete r s s1 s2 ns pods esList hpods hes
      hreq hex]
    simp [List.countP_cons, Call.isCreate, Call.isDelete]
  · intro hagree
    rw [ImagePullExternalSecretReconciler.reconcile_noop r s s1 s2 ns pods esList hpods hes
      hagree]
    simp [List.countP_cons, Call.isMutation]
  · cases hreq : r.requiredOf pods <;> cases hex : r.existsOf esList
    · rw [ImagePullExternalSecretReconciler.reconcile_noop r s s1 s2 ns pods esList hpods hes
        (by rw [hreq, hex])]
      simp [List.countP_cons, Call.isMutation]
    · rw [ImagePullExternalSecretReconciler.reconcile_delete r s s1 s2 ns pods esList hpods hes
        hreq hex]
      simp [List.countP_cons, Call.isMutation]
    · rw [ImagePullExternalSecretReconciler.reconcile_create r s s1 s2 ns pods esList hpods hes
        hreq hex]
      simp [List.countP_cons, Call.isMutation]
    · rw [ImagePullExternalSecretReconciler.reconcile_noop r s s1 s2 ns pods esList hpods hes
        (by rw [hreq, hex])]
      simp [List.countP_cons, Call.isMutation]

theorem reconcileExternalSecrets_policy_table_witness :
    (testReconciler.reconcileExternalSecrets storeWithPod "default").calls.countP
        Call.isCreate = 1 ∧
      (testReconciler.reconcileExternalSecrets storeWithPod "default").calls.countP
        Call.isDelete = 0 :=
  (reconcileExternalSecrets_policy_table testReconciler storeWithPod storeWithPod storeWithPod
    "default" [testPod] [] rfl rfl).1 ⟨by decide, by decide⟩

/-- C2: in both reconcilers, for a pod that `Get` returns, the namespace reconciliation
of the pod's namespace runs exactly when the pod's DeletionTimestamp is zero and some
entry of its imagePullSecrets, at any position, is named `TriggerSecretName`; otherwise
`Reconcile` issues no List, Create or Delete call and returns success. -/
theorem Reconcile_gate :
    (∀ (σ : Type) (r : ImagePullExternalSecretReconciler σ) (s s1 : σ) (req : Request)
        (pod : Pod), r.Client.Get s req.NamespacedName = (.ok pod, s1) →
      ((IsZero pod.ObjectMeta.DeletionTimestamp = true ∧
          ∃ obj ∈ pod.Spec.ImagePullSecrets, obj.Name = r.TriggerSecretName) →
        (r.Reconcile s req).calls =
            .Get req.NamespacedName :: (r.reconcileExternalSecrets s1 pod.Namespace).calls ∧
          (r.Reconcile s req).err = (r.reconcileExternalSecrets s1 pod.Namespace).err ∧
          (r.Reconcile s req).state = (r.reconcileExternalSecrets s1 pod.Namespace).state) ∧
      (¬ (IsZero pod.ObjectMeta.DeletionTimestamp = true ∧
          ∃ obj ∈ pod.Spec.ImagePullSecrets, obj.Name = r.TriggerSecretName) →
        (r.Reconcile s req).calls = [.Get req.NamespacedName] ∧
          (r.Reconcile s req).err = none ∧ (r.Reconcile s req).state = s1) ∧
      ((r.Reconcile s req).calls.any Call.isList = true ↔
        (IsZero pod.ObjectMeta.DeletionTimestamp = true ∧
          ∃ obj ∈ pod.Spec.ImagePullSecrets, obj.Name = r.TriggerSecretName))) ∧
    (∀ (σ : Type) (r : ImagePullSecretReconciler σ) (s s1 : σ) (req : Request)
        (pod : Pod), r.Client.Get s req.NamespacedName = (.ok pod, s1) →
      ((IsZero pod.ObjectMeta.DeletionTimestamp = true ∧
          ∃ obj ∈ pod.Spec.ImagePullSecrets, obj.Name = r.TriggerSecretName) →
        (r.Reconcile s req).calls =
            .Get req.NamespacedName :: (r.reconcileExternalSecrets s1 pod.Namespace).calls ∧
          (r.Reconcile s req).err = (r.reconcileExternalSecrets s1 pod.Namespace).err ∧
          (r.Reconcile s req).state = (r.reconcileExternalSecrets s1 pod.Namespace).state) ∧
      (¬ (IsZero pod.ObjectMeta.DeletionTimestamp = true ∧
          ∃ obj ∈ pod.Spec.ImagePullSecrets, obj.Name = r.TriggerSecretName) →
        (r.Reconcile s req).calls = [.Get req.NamespacedName] ∧
          (r.Reconcile s req).err = none ∧ (r.Reconcile s req).state = s1) ∧
      ((r.Reconcile s req).calls.any Call.isList = true ↔
        (IsZero pod.ObjectMeta.DeletionTimestamp = true ∧
          ∃ obj ∈ pod.Spec.ImagePullSecrets, obj.Name = r.TriggerSecretName))) := by
  have key : ∀ (trigger : String) (pod : Pod),
      (IsZero pod.ObjectMeta.DeletionTimestamp = true ∧
          ∃ obj ∈ pod.Spec.ImagePullSecrets, obj.Name = trigger) ∨
      (IsZero pod.ObjectMeta.DeletionTimestamp = false ∨
          pod.Spec.ImagePullSecrets.any (fun obj => obj.Name == trigger) = false) := by
    intro trigger pod
    cases hz : IsZero pod.ObjectMeta.DeletionTimestamp
    · exact Or.inr (Or.inl rfl)
    · cases hu : pod.Spec.ImagePullSecrets.any (fun obj => obj.Name == trigger)
      · exact Or.inr (Or.inr rfl)
      · refine Or.inl ⟨rfl, ?_⟩
        obtain ⟨obj, hmem, hobj⟩ := List.any_eq_true.mp hu
        exact ⟨obj, hmem, by simpa using hobj⟩
  have toAny : ∀ (trigger : String) (pod : Pod),
      (∃ obj ∈ pod.Spec.ImagePullSecrets, obj.Name = trigger) →
      pod.Spec.ImagePullSecrets.any (fun obj => obj.Name == trigger) = true := by
    rintro trigger pod ⟨obj, hmem, hobj⟩
    exact List.any_eq_true.mpr ⟨obj, hmem, by simpa using hobj⟩
  have excl : ∀ (trigger : String) (pod : Pod),
      (IsZero pod.ObjectMeta.DeletionTimestamp = false ∨
          pod.Spec.ImagePullSecrets.any (fun obj => obj.Name == trigger) = false) →
      ¬ (IsZero pod.ObjectMeta.DeletionTimestamp = true ∧
          ∃ obj ∈ pod.Spec.ImagePullSecrets, obj.Name = trigger) := by
    rintro trigger pod h ⟨hz, hex⟩
    rcases h with h | h
    · rw [hz] at h; cases h
    · rw [toAny trigger pod hex] at h; cases h
  constructor
  · intro σ r s s1 req pod hget
    rcases key r.TriggerSecretName pod with hrel | hirr
    · have hrun := ImagePullExternalSecretReconciler.Reconcile_relevant r s s1 req pod hget
        hrel.1 (toAny _ _ hrel.2)
      refine ⟨fun _ => by rw [hrun]; exact ⟨rfl, rfl, rfl⟩, fun hn => absurd hrel hn, ?_⟩
      obtain ⟨⟨rest, hrest, _⟩, _⟩ :=
        ImagePullExternalSecretReconciler.reconcile_shape r s1 pod.Namespace
      rw [hrun]
      simp only [hrest]
      exact ⟨fun _ => hrel, fun _ => by simp [Call.isList]⟩
    · have hskip := ImagePullExternalSecretReconciler.Reconcile_irrelevant r s s1 req pod hget
        hirr
      have hn := excl _ _ hirr
      refine ⟨fun h => absurd h hn, fun _ => by rw [hskip]; exact ⟨rfl, rfl, rfl⟩, ?_⟩
      rw [hskip]
      exact ⟨fun h => by simp [Call.isList] at h, fun h => absurd h hn⟩
  · intro σ r s s1 req pod hget
    rcases key r.TriggerSecretName pod with hrel | hirr
    · have hrun := ImagePullSecretReconciler.podReconcile_relevant r s s1 req pod hget
        hrel.1 (toAny _ _ hrel.2)
      refine ⟨fun _ => by rw [hrun]; exact ⟨rfl, rfl, rfl⟩, fun hn => absurd hrel hn, ?_⟩
      obtain ⟨rest, hrest⟩ := ImagePullSecretReconciler.podReconcile_head r s1 pod.Namespace
      rw [hrun]
      simp only [hrest]
      exact ⟨fun _ => hrel, fun _ => by simp [Call.isList]⟩
    · have hskip := ImagePullSecretReconciler.podReconcile_irrelevant r s s1 req pod hget hirr
      have hn := excl _ _ hirr
      refine ⟨fun h => absurd h hn, fun _ => by rw [hskip]; exact ⟨rfl, rfl, rfl⟩, ?_⟩
      rw [hskip]
      exact ⟨fun h => by simp [Call.isList] at h, fun h => absurd h hn⟩

theorem Reconcile_gate_witness :
    (testReconciler.Reconcile storeWithPod testRequest).calls.any Call.isList = true ↔
      (IsZero testPod.ObjectMeta.DeletionTimestamp = true ∧
        ∃ obj ∈ testPod.Spec.ImagePullSecrets, obj.Name = testReconciler.TriggerSecretName) :=
  (Reconcile_gate.1 Store testReconciler storeWithPod storeWithPod testRequest testPod rfl).2.2

/-! ## Deleted pods, failing lists, the submitted object -/

/-- C3: in `Reconcile` of the ExternalSecret reconciler, when `Get` returns a not-found
error, that error is not returned; the namespace reconciliation runs on `req.Namespace`
and `Reconcile` returns what it returns (success exactly when it returns no error). When
no listed pod references `TriggerSecretName` and an ExternalSecret named as the template
is listed, a Delete for that name in `req.Namespace` is issued. -/
theorem Reconcile_notFound_reconciles {σ : Type} (r : ImagePullExternalSecretReconciler σ)
    (s s1 : σ) (req : Request) (e : GoError)
    (hget : r.Client.Get s req.NamespacedName = (.error e, s1))
    (hnf : IsNotFound e = true) :
    (r.Reconcile s req).calls =
        .Get req.NamespacedName :: (r.reconcileExternalSecrets s1 req.Namespace).calls ∧
      (r.Reconcile s req).err = (r.reconcileExternalSecrets s1 req.Namespace).err ∧
      (r.Reconcile s req).state = (r.reconcileExternalSecrets s1 req.Namespace).state ∧
      (r.Reconcile s req).err ≠ some e ∧
      (∀ e2, (r.Reconcile s req).err = some e2 → IsNotFound e2 = false) ∧
      (∀ (pods : List Pod) (esList : List ExternalSecret) (s2 s3 : σ),
        r.Client.ListPods s1 req.Namespace = (.ok pods, s2) →
        r.Client.ListExternalSecrets s2 req.Namespace = (.ok esList, s3) →
        r.requiredOf pods = false → r.existsOf esList = true →
        Call.Delete (r.DesiredExternalSecret.SetNamespace req.Namespace) ∈
            (r.Reconcile s req).calls ∧
          (r.DesiredExternalSecret.SetNamespace req.Namespace).Name =
            r.DesiredExternalSecret.Name ∧
          (r.DesiredExternalSecret.SetNamespace req.Namespace).Namespace = req.Namespace) := by
  have hrun := ImagePullExternalSecretReconciler.Reconcile_notFound r s s1 req e hget hnf
  have hplain : ∀ e2, (r.Reconcile s req).err = some e2 → IsNotFound e2 = false := by
    intro e2 h2
    rw [hrun] at h2
    obtain ⟨m, hm⟩ :=
      ImagePullExternalSecretReconciler.reconcile_err_plain r s1 req.Namespace e2 h2
    rw [hm]; rfl
  refine ⟨by rw [hrun], by rw [hrun], by rw [hrun], ?_, hplain, ?_⟩
  · intro h
    have := hplain e h
    rw [hnf] at this
    cases this
  · intro pods esList s2 s3 hp he hreq hex
    refine ⟨?_, rfl, rfl⟩
    rw [hrun]
    simp only
    rw [ImagePullExternalSecretReconciler.reconcile_delete r s1 s2 s3 req.Namespace pods esList
      hp he hreq hex]
    simp

theorem Reconcile_notFound_reconciles_witness :
    Call.Delete (testTemplate.SetNamespace "default") ∈
      (testReconciler.Reconcile storeAfterPodDeleted testRequest).calls :=
  ((Reconcile_notFound_reconciles testReconciler storeAfterPodDeleted storeAfterPodDeleted
    testRequest (.status .NotFound "pods \"test-pod\" not found") rfl rfl).2.2.2.2.2
    [] [testTemplate.SetNamespace "default"] storeAfterPodDeleted storeAfterPodDeleted
    rfl rfl (by decide) (by decide)).1

/-- C7: in `reconcileExternalSecrets` of the ExternalSecret reconciler, hence in
`Reconcile`, when the List of pods fails, or it succeeds and the List of ExternalSecrets
fails, an error is returned and no Create and no Delete is issued, whatever the list
that was returned holds. -/
theorem list_failure_aborts {σ : Type} (r : ImagePullExternalSecretReconciler σ) (s : σ)
    (ns : String)
    (hfail : (∃ e s1, r.Client.ListPods s ns = (.error e, s1)) ∨
      (∃ pods s1 e s2, r.Client.ListPods s ns = (.ok pods, s1) ∧
        r.Client.ListExternalSecrets s1 ns = (.error e, s2))) :
    ((r.reconcileExternalSecrets s ns).err ≠ none ∧
      (r.reconcileExternalSecrets s ns).calls.countP Call.isMutation = 0) ∧
    (∀ (s0 : σ) (req : Request) (e : GoError),
      r.Client.Get s0 req.NamespacedName = (.error e, s) → IsNotFound e = true →
      req.Namespace = ns →
      (r.Reconcile s0 req).err ≠ none ∧
        (r.Reconcile s0 req).calls.countP Call.isMutation = 0) ∧
    (∀ (s0 : σ) (req : Request) (pod : Pod),
      r.Client.Get s0 req.NamespacedName = (.ok pod, s) →
      IsZero pod.ObjectMeta.DeletionTimestamp = true →
      (∃ obj ∈ pod.Spec.ImagePullSecrets, obj.Name = r.TriggerSecretName) →
      pod.Namespace = ns →
      (r.Reconcile s0 req).err ≠ none ∧
        (r.Reconcile s0 req).calls.countP Call.isMutation = 0) := by
  have base : (r.reconcileExternalSecrets s ns).err ≠ none ∧
      (r.reconcileExternalSecrets s ns).calls.countP Call.isMutation = 0 := by
    rcases hfail with ⟨e, s1, hp⟩ | ⟨pods, s1, e, s2, hp, he⟩
    · rw [ImagePullExternalSecretReconciler.reconcile_listPods_error r s s1 ns e hp]
      simp [List.countP_cons, Call.isMutation]
    · rw [ImagePullExternalSecretReconciler.reconcile_listExternalSecrets_error r s s1 s2 ns
        pods e hp he]
      simp [List.countP_cons, Call.isMutation]
  refine ⟨base, ?_, ?_⟩
  · intro s0 req e hget hnf hns
    rw [ImagePullExternalSecretReconciler.Reconcile_notFound r s0 s req e hget hnf, hns]
    refine ⟨base.1, ?_⟩
    simp only [List.countP_cons, Call.isMutation, base.2]
    simp
  · rintro s0 req pod hget hz ⟨obj, hmem, hobj⟩ hns
    rw [ImagePullExternalSecretReconciler.Reconcile_relevant r s0 s req pod hget hz
      (List.any_eq_true.mpr ⟨obj, hmem, by simpa using hobj⟩), hns]
    refine ⟨base.1, ?_⟩
    simp only [List.countP_cons, Call.isMutation, base.2]
    simp

/-- C9: in `reconcileExternalSecrets` of the ExternalSecret reconciler, the object passed
to Create or Delete is the template `DesiredExternalSecret` in every field except
`Namespace`, which is the namespace being reconciled; the receiver, with its
`DesiredExternalSecret` and `TriggerSecretName`, is after the call what it was before,
whether the call succeeds or fails. -/
theorem reconcileExternalSecrets_frame {σ : Type} (r : ImagePullExternalSecretReconciler σ)
    (s : σ) (ns : String) :
    (∀ obj, (Call.Create obj ∈ (r.reconcileExternalSecrets s ns).calls ∨
        Call.Delete obj ∈ (r.reconcileExternalSecrets s ns).calls) →
      obj = { ObjectMeta := { Name := r.DesiredExternalSecret.ObjectMeta.Name,
                              Namespace := ns,
                              DeletionTimestamp :=
                                r.DesiredExternalSecret.ObjectMeta.DeletionTimestamp,
                              Labels := r.DesiredExternalSecret.ObjectMeta.Labels },
              Spec := r.DesiredExternalSecret.Spec } ∧
        obj.Name = r.DesiredExternalSecret.Name ∧ obj.Namespace = ns) ∧
    (r.reconcileExternalSecrets s ns).receiver = r ∧
    (r.reconcileExternalSecrets s ns).receiver.DesiredExternalSecret =
      r.DesiredExternalSecret ∧
    (r.reconcileExternalSecrets s ns).receiver.TriggerSecretName = r.TriggerSecretName := by
  obtain ⟨⟨rest, hcalls, _, hrest⟩, hrecv⟩ :=
    ImagePullExternalSecretReconciler.reconcile_shape r s ns
  refine ⟨?_, hrecv, by rw [hrecv], by rw [hrecv]⟩
  intro obj hobj
  have hset : obj = r.DesiredExternalSecret.SetNamespace ns := by
    rw [hcalls] at hobj
    rcases hobj with h | h
    · rcases List.mem_cons.mp h with h | h
      · cases h
      · rcases hrest _ h with h | h | h
        · cases h
        · exact Call.Create.inj h
        · cases h
    · rcases List.mem_cons.mp h with h | h
      · cases h
      · rcases hrest _ h with h | h | h
        · cases h
        · cases h
        · exact Call.Delete.inj h
  rw [hset]
  exact ⟨rfl, rfl, rfl⟩

theorem reconcileExternalSecrets_frame_witness :
    (testTemplate.SetNamespace "default").Name = "test-es" ∧
      (testTemplate.SetNamespace "default").Namespace = "default" ∧
      testReconciler.DesiredExternalSecret.Namespace = "" :=
  ⟨((reconcileExternalSecrets_frame testReconciler storeWithPod "default").1
      (testTemplate.SetNamespace "default") (Or.inl (by decide))).2.1,
    ((reconcileExternalSecrets_frame testReconciler storeWithPod "default").1
      (testTemplate.SetNamespace "default") (Or.inl (by decide))).2.2, rfl⟩

theorem list_failure_aborts_witness :
    (timeoutReconciler.reconcileExternalSecrets storeAfterPodDeleted "default").err ≠ none ∧
      (timeoutReconciler.reconcileExternalSecrets storeAfterPodDeleted "default").calls.countP
        Call.isMutation = 0 :=
  (list_failure_aborts timeoutReconciler storeAfterPodDeleted "default"
    (Or.inl ⟨_, _, rfl⟩)).1

/-! ## Propagation of errors -/

/-- C8, as stated, fails: with the Create of the tests scheduled to fail with an
already-exists status error, `Reconcile` returns another error, a plain string error
that is no longer an already-exists error. -/
theorem Reconcile_error_unchanged_counterexample :
    Store.create storeCreateFails (testTemplate.SetNamespace "default") =
        (some (.status .AlreadyExists "externalsecrets \"test-es\" already exists"),
          { pods := [testPod] }) ∧
      (testReconciler.Reconcile storeCreateFails testRequest).calls =
        [.Get testRequest.NamespacedName, .ListPods "default", .ListExternalSecrets "default",
          .Create (testTemplate.SetNamespace "default")] ∧
      (testReconciler.Reconcile storeCreateFails testRequest).err =
        some (.errorString
          "creating ExternalSecret: externalsecrets \"test-es\" already exists") ∧
      (testReconciler.Reconcile storeCreateFails testRequest).err ≠
        some (.status .AlreadyExists "externalsecrets \"test-es\" already exists") ∧
      IsAlreadyExists (.status .AlreadyExists "externalsecrets \"test-es\" already exists")
        = true ∧
      IsAlreadyExists (.errorString
        "creating ExternalSecret: externalsecrets \"test-es\" already exists") = false := by
  decide

/-- C8, amended: a `Get` error that is not not-found is returned by `Reconcile` as it is.
Whenever `Reconcile` reconciles the namespace (the `Get` is not-found, or the pod has a
zero DeletionTimestamp and the trigger secret), a failing List of pods, List of
ExternalSecrets, Create or Delete with error `e` makes `Reconcile` itself return a new
plain string error, whose message is the context of the call followed by the message of
`e`, and the failing call is the last call of `Reconcile`; the same holds of
`reconcileExternalSecrets` on its own. No call is issued twice. -/
theorem Reconcile_error_propagation {σ : Type} (r : ImagePullExternalSecretReconciler σ)
    (s : σ) (req : Request) :
    (∀ e s1, r.Client.Get s req.NamespacedName = (.error e, s1) → IsNotFound e = false →
      (r.Reconcile s req).err = some e ∧
        (r.Reconcile s req).calls = [.Get req.NamespacedName]) ∧
    (∀ (s1 : σ) (ns : String),
      ((∃ e0, r.Client.Get s req.NamespacedName = (.error e0, s1) ∧ IsNotFound e0 = true ∧
          ns = req.Namespace) ∨
        (∃ pod, r.Client.Get s req.NamespacedName = (.ok pod, s1) ∧
          IsZero pod.ObjectMeta.DeletionTimestamp = true ∧
          (∃ obj ∈ pod.Spec.ImagePullSecrets, obj.Name = r.TriggerSecretName) ∧
          ns = pod.Namespace)) →
      ((r.Reconcile s req).err = (r.reconcileExternalSecrets s1 ns).err ∧
        (r.Reconcile s req).calls =
          .Get req.NamespacedName :: (r.reconcileExternalSecrets s1 ns).calls) ∧
      (∀ (s2 : σ) (e : GoError), r.Client.ListPods s1 ns = (.error e, s2) →
        (r.Reconcile s req).err =
            some (.errorString ("listing pods in " ++ ns ++ " namespace: " ++ e.Error)) ∧
          (r.Reconcile s req).calls = [.Get req.NamespacedName, .ListPods ns]) ∧
      (∀ (s2 s3 : σ) (pods : List Pod) (e : GoError),
        r.Client.ListPods s1 ns = (.ok pods, s2) →
        r.Client.ListExternalSecrets s2 ns = (.error e, s3) →
        (r.Reconcile s req).err =
            some (.errorString ("listing secrets in " ++ ns ++ " namespace: " ++ e.Error)) ∧
          (r.Reconcile s req).calls =
            [.Get req.NamespacedName, .ListPods ns, .ListExternalSecrets ns]) ∧
      (∀ (s2 s3 s4 : σ) (pods : List Pod) (esList : List ExternalSecret) (e : GoError),
        r.Client.ListPods s1 ns = (.ok pods, s2) →
        r.Client.ListExternalSecrets s2 ns = (.ok esList, s3) →
        r.requiredOf pods = true → r.existsOf esList = false →
        r.Client.Create s3 (r.DesiredExternalSecret.SetNamespace ns) = (some e, s4) →
        (r.Reconcile s req).err =
            some (.errorString ("creating ExternalSecret: " ++ e.Error)) ∧
          (r.Reconcile s req).calls =
            [.Get req.NamespacedName, .ListPods ns, .ListExternalSecrets ns,
              .Create (r.DesiredExternalSecret.SetNamespace ns)]) ∧
      (∀ (s2 s3 s4 : σ) (pods : List Pod) (esList : List ExternalSecret) (e : GoError),
        r.Client.ListPods s1 ns = (.ok pods, s2) →
        r.Client.ListExternalSecrets s2 ns = (.ok esList, s3) →
        r.requiredOf pods = false → r.existsOf esList = true →
        r.Client.Delete s3 (r.DesiredExternalSecret.SetNamespace ns) = (some e, s4) →
        (r.Reconcile s req).err =
            some (.errorString ("deleting ExternalSecret: " ++ e.Error)) ∧
          (r.Reconcile s req).calls =
            [.Get req.NamespacedName, .ListPods ns, .ListExternalSecrets ns,
              .Delete (r.DesiredExternalSecret.SetNamespace ns)])) ∧
    (∀ pod s1, r.Client.Get s req.NamespacedName = (.ok pod, s1) →
      ¬ (IsZero pod.ObjectMeta.DeletionTimestamp = true ∧
          ∃ obj ∈ pod.Spec.ImagePullSecrets, obj.Name = r.TriggerSecretName) →
      (r.Reconcile s req).err = none ∧
        (r.Reconcile s req).calls = [.Get req.NamespacedName]) ∧
    (∀ (s1 s2 : σ) (ns : String) (e : GoError),
      r.Client.ListPods s1 ns = (.error e, s2) →
      (r.reconcileExternalSecrets s1 ns).err =
          some (.errorString ("listing pods in " ++ ns ++ " namespace: " ++ e.Error)) ∧
        (r.reconcileExternalSecrets s1 ns).calls = [.ListPods ns]) ∧
    (∀ (s1 s2 s3 : σ) (ns : String) (pods : List Pod) (e : GoError),
      r.Client.ListPods s1 ns = (.ok pods, s2) →
      r.Client.ListExternalSecrets s2 ns = (.error e, s3) →
      (r.reconcileExternalSecrets s1 ns).err =
          some (.errorString ("listing secrets in " ++ ns ++ " namespace: " ++ e.Error)) ∧
        (r.reconcileExternalSecrets s1 ns).calls =
          [.ListPods ns, .ListExternalSecrets ns]) ∧
    (∀ (s1 s2 s3 s4 : σ) (ns : String) (pods : List Pod) (esList : List ExternalSecret)
        (e : GoError),
      r.Client.ListPods s1 ns = (.ok pods, s2) →
      r.Client.ListExternalSecrets s2 ns = (.ok esList, s3) →
      r.requiredOf pods = true → r.existsOf esList = false →
      r.Client.Create s3 (r.DesiredExternalSecret.SetNamespace ns) = (some e, s4) →
      (r.reconcileExternalSecrets s1 ns).err =
          some (.errorString ("creating ExternalSecret: " ++ e.Error)) ∧
        (r.reconcileExternalSecrets s1 ns).calls =
          [.ListPods ns, .ListExternalSecrets ns,
            .Create (r.DesiredExternalSecret.SetNamespace ns)]) ∧
    (∀ (s1 s2 s3 s4 : σ) (ns : String) (pods : List Pod) (esList : List ExternalSecret)
        (e : GoError),
      r.Client.ListPods s1 ns = (.ok pods, s2) →
      r.Client.ListExternalSecrets s2 ns = (.ok esList, s3) →
      r.requiredOf pods = false → r.existsOf esList = true →
      r.Client.Delete s3 (r.DesiredExternalSecret.SetNamespace ns) = (some e, s4) →
      (r.reconcileExternalSecrets s1 ns).err =
          some (.errorString ("deleting ExternalSecret: " ++ e.Error)) ∧
        (r.reconcileExternalSecrets s1 ns).calls =
          [.ListPods ns, .ListExternalSecrets ns,
            .Delete (r.DesiredExternalSecret.SetNamespace ns)]) ∧
    (r.Reconcile s req).calls.Nodup := by
  have hLP : ∀ (s1 s2 : σ) (ns : String) (e : GoError),
      r.Client.ListPods s1 ns = (.error e, s2) →
      (r.reconcileExternalSecrets s1 ns).err =
          some (.errorString ("listing pods in " ++ ns ++ " namespace: " ++ e.Error)) ∧
        (r.reconcileExternalSecrets s1 ns).calls = [.ListPods ns] := by
    intro s1 s2 ns e hp
    rw [ImagePullExternalSecretReconciler.reconcile_listPods_error r s1 s2 ns e hp]
    exact ⟨rfl, rfl⟩
  have hLE : ∀ (s1 s2 s3 : σ) (ns : String) (pods : List Pod) (e : GoError),
      r.Client.ListPods s1 ns = (.ok pods, s2) →
      r.Client.ListExternalSecrets s2 ns = (.error e, s3) →
      (r.reconcileExternalSecrets s1 ns).err =
          some (.errorString ("listing secrets in " ++ ns ++ " namespace: " ++ e.Error)) ∧
        (r.reconcileExternalSecrets s1 ns).calls =
          [.ListPods ns, .ListExternalSecrets ns] := by
    intro s1 s2 s3 ns pods e hp he
    rw [ImagePullExternalSecretReconciler.reconcile_listExternalSecrets_error r s1 s2 s3 ns
      pods e hp he]
    exact ⟨rfl, rfl⟩
  have hC : ∀ (s1 s2 s3 s4 : σ) (ns : String) (pods : List Pod)
      (esList : List ExternalSecret) (e : GoError),
      r.Client.ListPods s1 ns = (.ok pods, s2) →
      r.Client.ListExternalSecrets s2 ns = (.ok esList, s3) →
      r.requiredOf pods = true → r.existsOf esList = false →
      r.Client.Create s3 (r.DesiredExternalSecret.SetNamespace ns) = (some e, s4) →
      (r.reconcileExternalSecrets s1 ns).err =
          some (.errorString ("creating ExternalSecret: " ++ e.Error)) ∧
        (r.reconcileExternalSecrets s1 ns).calls =
          [.ListPods ns, .ListExternalSecrets ns,
            .Create (r.DesiredExternalSecret.SetNamespace ns)] := by
    intro s1 s2 s3 s4 ns pods esList e hp he hreq hex hc
    rw [ImagePullExternalSecretReconciler.reconcile_create r s1 s2 s3 ns pods esList hp he
      hreq hex, hc]
    exact ⟨rfl, rfl⟩
  have hD : ∀ (s1 s2 s3 s4 : σ) (ns : String) (pods : List Pod)
      (esList : List ExternalSecret) (e : GoError),
      r.Client.ListPods s1 ns = (.ok pods, s2) →
      r.Client.ListExternalSecrets s2 ns = (.ok esList, s3) →
      r.requiredOf pods = false → r.existsOf esList = true →
      r.Client.Delete s3 (r.DesiredExternalSecret.SetNamespace ns) = (some e, s4) →
      (r.reconcileExternalSecrets s1 ns).err =
          some (.errorString ("deleting ExternalSecret: " ++ e.Error)) ∧
        (r.reconcileExternalSecrets s1 ns).calls =
          [.ListPods ns, .ListExternalSecrets ns,
            .Delete (r.DesiredExternalSecret.SetNamespace ns)] := by
    intro s1 s2 s3 s4 ns pods esList e hp he hreq hex hc
    rw [ImagePullExternalSecretReconciler.reconcile_delete r s1 s2 s3 ns pods esList hp he
      hreq hex, hc]
    exact ⟨rfl, rfl⟩
  refine ⟨?_, ?_, ?_, hLP, hLE, hC, hD, ?_⟩
  · intro e s1 hget hnf
    rw [ImagePullExternalSecretReconciler.Reconcile_getError r s s1 req e hget hnf]
    exact ⟨rfl, rfl⟩
  · intro s1 ns hruns
    have hfwd : (r.Reconcile s req).err = (r.reconcileExternalSecrets s1 ns).err ∧
        (r.Reconcile s req).calls =
          .Get req.NamespacedName :: (r.reconcileExternalSecrets s1 ns).calls := by
      rcases hruns with ⟨e0, hget, hnf, hns⟩ | ⟨pod, hget, hz, ⟨obj, hmem, hobj⟩, hns⟩
      · rw [ImagePullExternalSecretReconciler.Reconcile_notFound r s s1 req e0 hget hnf, hns]
        exact ⟨rfl, rfl⟩
      · rw [ImagePullExternalSecretReconciler.Reconcile_relevant r s s1 req pod hget hz
          (List.any_eq_true.mpr ⟨obj, hmem, by simpa using hobj⟩), hns]
        exact ⟨rfl, rfl⟩
    refine ⟨hfwd, ?_, ?_, ?_, ?_⟩
    · intro s2 e hp
      rw [hfwd.1, hfwd.2, (hLP s1 s2 ns e hp).1, (hLP s1 s2 ns e hp).2]
      exact ⟨rfl, rfl⟩
    · intro s2 s3 pods e hp he
      rw [hfwd.1, hfwd.2, (hLE s1 s2 s3 ns pods e hp he).1, (hLE s1 s2 s3 ns pods e hp he).2]
      exact ⟨rfl, rfl⟩
    · intro s2 s3 s4 pods esList e hp he hreq hex hc
      rw [hfwd.1, hfwd.2, (hC s1 s2 s3 s4 ns pods esList e hp he hreq hex hc).1,
        (hC s1 s2 s3 s4 ns pods esList e hp he hreq hex hc).2]
      exact ⟨rfl, rfl⟩
    · intro s2 s3 s4 pods esList e hp he hreq hex hc
      rw [hfwd.1, hfwd.2, (hD s1 s2 s3 s4 ns pods esList e hp he hreq hex hc).1,
        (hD s1 s2 s3 s4 ns pods esList e hp he hreq hex hc).2]
      exact ⟨rfl, rfl⟩
  · intro pod s1 hget hn
    have hirr : IsZero pod.ObjectMeta.DeletionTimestamp = false ∨
        pod.Spec.ImagePullSecrets.any (fun obj => obj.Name == r.TriggerSecretName) = false := by
      cases hz : IsZero pod.ObjectMeta.DeletionTimestamp
      · exact Or.inl rfl
      · cases hu : pod.Spec.ImagePullSecrets.any (fun obj => obj.Name == r.TriggerSecretName)
        · exact Or.inr rfl
        · obtain ⟨obj, hmem, hobj⟩ := List.any_eq_true.mp hu
          exact absurd ⟨hz, obj, hmem, by simpa using hobj⟩ hn
    rw [ImagePullExternalSecretReconciler.Reconcile_irrelevant r s s1 req pod hget hirr]
    exact ⟨rfl, rfl⟩
  · rcases ImagePullExternalSecretReconciler.Reconcile_cases r s req with h | ⟨s1, ns, h, _⟩
    · rw [h]; simp
    · rw [h]
      rcases ImagePullExternalSecretReconciler.reconcile_calls_cases r s1 ns with
        h2 | h2 | h2 | h2 <;> rw [h2] <;> simp

theorem Reconcile_error_propagation_witness :
    (testReconciler.Reconcile storeCreateFails testRequest).err =
      some (.errorString ("creating ExternalSecret: " ++
        (GoError.status .AlreadyExists "externalsecrets \"test-es\" already exists").Error)) ∧
    (testReconciler.Reconcile storeCreateFails testRequest).calls =
      [.Get testRequest.NamespacedName, .ListPods "default", .ListExternalSecrets "default",
        .Create (testReconciler.DesiredExternalSecret.SetNamespace "default")] :=
  ((Reconcile_error_propagation testReconciler storeCreateFails testRequest).2.1
    storeCreateFails "default"
    (Or.inr ⟨testPod, rfl, rfl, ⟨{ Name := "test-secret" }, by decide, rfl⟩, rfl⟩)).2.2.2.1
    storeCreateFails storeCreateFails { pods := [testPod] } [testPod] []
    (.status .AlreadyExists "externalsecrets \"test-es\" already exists")
    rfl rfl (by decide) (by decide) rfl

/-! ## The reconciler on the store -/

namespace Store

theorem requiredOf_listed (trigger : String) (desired : ExternalSecret) (s : Store)
    (ns : String) :
    (storeReconciler trigger desired).requiredOf (s.pods.filter (fun p => p.Namespace == ns)) =
      s.required trigger ns := by
  simp only [ImagePullExternalSecretReconciler.requiredOf, required, List.any_filter,
    storeReconciler]

theorem existsOf_listed (trigger : String) (desired : ExternalSecret) (s : Store)
    (ns : String) :
    (storeReconciler trigger desired).existsOf
        (s.externalSecrets.filter (fun es => es.Namespace == ns)) =
      s.present desired.Name ns := by
  simp only [ImagePullExternalSecretReconciler.existsOf, present, List.any_filter,
    storeReconciler]

theorem create_ok (s : Store) (obj : ExternalSecret) (h : (s.create obj).1 = none) :
    (s.create obj).2.pods = s.pods ∧ (s.create obj).2.secrets = s.secrets ∧
      (s.create obj).2.externalSecrets = s.externalSecrets ++ [obj] := by
  unfold create at h ⊢
  split at h
  · simp at h
  · split at h
    · simp at h
    · rename_i hany
      split
      · rename_i heq _; simp_all
      · simp [hany]

theorem delete_ok (s : Store) (obj : ExternalSecret) (h : (s.delete obj).1 = none) :
    (s.delete obj).2.pods = s.pods ∧ (s.delete obj).2.secrets = s.secrets ∧
      (s.delete obj).2.externalSecrets =
        s.externalSecrets.filter (fun es => !sameKey obj es) := by
  unfold delete at h ⊢
  split at h
  · simp at h
  · split at h
    · rename_i hany
      split
      · rename_i heq _; simp_all
      · simp [hany]
    · simp at h

theorem get_cases (s : Store) (key : NamespacedName) :
    (∃ pod, s.get key = (.ok pod, s) ∧ pod.Namespace = key.Namespace ∧ pod ∈ s.pods) ∨
    (∃ e, s.get key = (.error e, s) ∧ IsNotFound e = true) := by
  unfold get
  cases hf : s.pods.find? (fun p => p.Namespace == key.Namespace && p.Name == key.Name) with
  | none => exact Or.inr ⟨_, rfl, rfl⟩
  | some pod =>
    refine Or.inl ⟨pod, rfl, ?_, List.mem_of_find?_eq_some hf⟩
    have := List.find?_some hf
    simp only [Bool.and_eq_true, beq_iff_eq] at this
    exact this.1

theorem get_congr (s t : Store) (key : NamespacedName) (h : t.pods = s.pods) :
    (t.get key).1 = (s.get key).1 := by
  unfold get
  rw [h]
  cases s.pods.find? (fun p => p.Namespace == key.Namespace && p.Name == key.Name) <;> rfl

theorem get_state (s : Store) (key : NamespacedName) : (s.get key).2 = s := by
  unfold get
  cases s.pods.find? (fun p => p.Namespace == key.Namespace && p.Name == key.Name) <;> rfl

/-- When required and present agree, the reconciliation of a namespace of the store
lists twice, writes nothing and succeeds. -/
theorem reconcile_agree (trigger : String) (desired : ExternalSecret) (s : Store)
    (ns : String) (h : s.required trigger ns = s.present desired.Name ns) :
    (storeReconciler trigger desired).reconcileExternalSecrets s ns =
      ⟨none, s, [.ListPods ns, .ListExternalSecrets ns], storeReconciler trigger desired⟩ :=
  ImagePullExternalSecretReconciler.reconcile_noop (storeReconciler trigger desired) s s s ns
    _ _ rfl rfl (by rw [requiredOf_listed, existsOf_listed, h])

/-- What a reconciliation of a namespace of the store that returns no error leaves. -/
theorem reconcile_effect (trigger : String) (desired : ExternalSecret) (s : Store)
    (ns : String)
    (hok : ((storeReconciler trigger desired).reconcileExternalSecrets s ns).err = none) :
    ((storeReconciler trigger desired).reconcileExternalSecrets s ns).state.pods = s.pods ∧
    ((storeReconciler trigger desired).reconcileExternalSecrets s ns).state.secrets =
      s.secrets ∧
    ((storeReconciler trigger desired).reconcileExternalSecrets s ns).state.present
      desired.Name ns = s.required trigger ns ∧
    ((storeReconciler trigger desired).reconcileExternalSecrets s ns).state.externalSecrets.filter
        (fun es => !(es.Namespace == ns && es.Name == desired.Name)) =
      s.externalSecrets.filter (fun es => !(es.Namespace == ns && es.Name == desired.Name)) := by
  have hp : (storeReconciler trigger desired).Client.ListPods s ns =
      (.ok (s.pods.filter (fun p => p.Namespace == ns)), s) := rfl
  have he : (storeReconciler trigger desired).Client.ListExternalSecrets s ns =
      (.ok (s.externalSecrets.filter (fun es => es.Namespace == ns)), s) := rfl
  have hkey : ∀ es : ExternalSecret,
      sameKey ((storeReconciler trigger desired).DesiredExternalSecret.SetNamespace ns) es =
        (es.Namespace == ns && es.Name == desired.Name) := fun es => rfl
  cases hreq : s.required trigger ns <;> cases hex : s.present desired.Name ns
  · rw [reconcile_agree trigger desired s ns (by rw [hreq, hex])]
    exact ⟨rfl, rfl, hex, rfl⟩
  · have hrun := ImagePullExternalSecretReconciler.reconcile_delete
      (storeReconciler trigger desired) s s s ns _ _ hp he
      (by rw [requiredOf_listed, hreq]) (by rw [existsOf_listed, hex])
    rw [hrun] at hok ⊢
    have hnone : ((storeReconciler trigger desired).Client.Delete s
        ((storeReconciler trigger desired).DesiredExternalSecret.SetNamespace ns)).1 = none := by
      simpa using hok
    obtain ⟨h1, h2, h3⟩ := delete_ok s _ hnone
    refine ⟨h1, h2, ?_, ?_⟩
    · show present _ _ _ = false
      unfold present
      have h3b : (delete s ((storeReconciler trigger desired).DesiredExternalSecret.SetNamespace
          ns)).2.externalSecrets = _ := h3
      simp only [storeReconciler, client] at h3b ⊢
      rw [h3b, List.any_filter]
      simp only [List.any_eq_false]
      intro es _
      have := hkey es
      simp only [storeReconciler] at this
      rw [this]
      cases (es.Namespace == ns && es.Name == desired.Name) <;> simp
    · have h3b : (delete s ((storeReconciler trigger desired).DesiredExternalSecret.SetNamespace
          ns)).2.externalSecrets = _ := h3
      simp only [storeReconciler, client] at h3b ⊢
      rw [h3b, List.filter_filter]
      congr 1
      funext es
      have := hkey es
      simp only [storeReconciler] at this
      rw [this]
      cases (es.Namespace == ns && es.Name == desired.Name) <;> rfl
  · have hrun := ImagePullExternalSecretReconciler.reconcile_create
      (storeReconciler trigger desired) s s s ns _ _ hp he
      (by rw [requiredOf_listed, hreq]) (by rw [existsOf_listed, hex])
    rw [hrun] at hok ⊢
    have hnone : ((storeReconciler trigger desired).Client.Create s
        ((storeReconciler trigger desired).DesiredExternalSecret.SetNamespace ns)).1 = none := by
      simpa using hok
    obtain ⟨h1, h2, h3⟩ := create_ok s _ hnone
    refine ⟨h1, h2, ?_, ?_⟩
    · show present _ _ _ = true
      unfold present
      have h3b : (create s ((storeReconciler trigger desired).DesiredExternalSecret.SetNamespace
          ns)).2.externalSecrets = _ := h3
      simp only [storeReconciler, client] at h3b ⊢
      rw [h3b, List.any_append]
      simp [ExternalSecret.SetNamespace, ExternalSecret.Namespace, ExternalSecret.Name]
    · have h3b : (create s ((storeReconciler trigger desired).DesiredExternalSecret.SetNamespace
          ns)).2.externalSecrets = _ := h3
      simp only [storeReconciler, client] at h3b ⊢
      rw [h3b, List.filter_append]
      simp [ExternalSecret.SetNamespace, ExternalSecret.Namespace, ExternalSecret.Name]
  · rw [reconcile_agree trigger desired s ns (by rw [hreq, hex])]
    exact ⟨rfl, rfl, hex, rfl⟩

theorem required_iff (s : Store) (trigger ns : String) :
    s.required trigger ns = true ↔
      ∃ p ∈ s.pods, p.Namespace = ns ∧ ∃ obj ∈ p.Spec.ImagePullSecrets, obj.Name = trigger := by
  simp only [required, List.any_eq_true, Bool.and_eq_true, beq_iff_eq]

theorem required_congr (s t : Store) (trigger ns : String) (h : t.pods = s.pods) :
    t.required trigger ns = s.required trigger ns := by
  unfold required
  rw [h]

theorem get_after (s t : Store) (key : NamespacedName) (h : t.pods = s.pods) :
    t.get key = ((s.get key).1, t) :=
  Prod.ext (get_congr s t key h) (get_state t key)

end Store

/-! ## Convergence on the store -/

/-- C10: over the store, when `reconcileExternalSecrets` returns no error, in the
resulting state an ExternalSecret named as the template is present in the namespace
exactly when some pod of the namespace, whatever its deletion timestamp, has an
imagePullSecret named `TriggerSecretName`; absent becomes present only when required and
not exists, present becomes absent only when not required and exists; the pods and every
other ExternalSecret are left as they were. -/
theorem reconcileExternalSecrets_state_machine (trigger : String) (desired : ExternalSecret)
    (s : Store) (ns : String) (o : Outcome Store (ImagePullExternalSecretReconciler Store))
    (ho : (storeReconciler trigger desired).reconcileExternalSecrets s ns = o)
    (hok : o.err = none) :
    (o.state.present desired.Name ns = true ↔
      ∃ p ∈ o.state.pods, p.Namespace = ns ∧
        ∃ obj ∈ p.Spec.ImagePullSecrets, obj.Name = trigger) ∧
    (s.present desired.Name ns = false → o.state.present desired.Name ns = true →
      s.required trigger ns = true ∧ s.present desired.Name ns = false) ∧
    (s.present desired.Name ns = true → o.state.present desired.Name ns = false →
      s.required trigger ns = false ∧ s.present desired.Name ns = true) ∧
    o.state.pods = s.pods ∧
    o.state.secrets = s.secrets ∧
    o.state.externalSecrets.filter
        (fun es => !(es.Namespace == ns && es.Name == desired.Name)) =
      s.externalSecrets.filter (fun es => !(es.Namespace == ns && es.Name == desired.Name)) := by
  subst ho
  obtain ⟨hpods, hsecrets, hpresent, hothers⟩ := Store.reconcile_effect trigger desired s ns hok
  refine ⟨?_, ?_, ?_, hpods, hsecrets, hothers⟩
  · rw [hpresent, ← Store.required_congr s _ trigger ns hpods, Store.required_iff]
  · intro h0 h1
    exact ⟨by rw [← hpresent, h1], h0⟩
  · intro h0 h1
    exact ⟨by rw [← hpresent, h1], h0⟩

theorem reconcileExternalSecrets_state_machine_witness :
    (testReconciler.reconcileExternalSecrets storeWithPod "default").state.externalSecrets =
      [testTemplate.SetNamespace "default"] ∧
    ((testReconciler.reconcileExternalSecrets storeWithPod "default").state.present
        testTemplate.Name "default" = true ↔
      ∃ p ∈ (testReconciler.reconcileExternalSecrets storeWithPod "default").state.pods,
        p.Namespace = "default" ∧
          ∃ obj ∈ p.Spec.ImagePullSecrets, obj.Name = "test-secret") :=
  ⟨by decide,
    (reconcileExternalSecrets_state_machine "test-secret" testTemplate storeWithPod "default"
      _ rfl (by decide)).1⟩

/-- C5, as stated, fails on two inputs. A request for a present pod without the trigger
secret returns success and leaves an ExternalSecret that no pod requires. A request for
an absent pod, in a namespace whose only pod with the trigger secret is being deleted,
returns success and creates the ExternalSecret, although no pod that is not being deleted
requires it. -/
theorem Reconcile_invariant_counterexample :
    ((testReconciler.Reconcile storeStale testRequest).err = none ∧
      (testReconciler.Reconcile storeStale testRequest).state.present "test-es" "default"
        = true ∧
      (testReconciler.Reconcile storeStale testRequest).state.requiredLive "test-secret"
        "default" = false) ∧
    ((testReconciler.Reconcile storeTerminating testRequest).err = none ∧
      (testReconciler.Reconcile storeTerminating testRequest).state.present "test-es"
        "default" = true ∧
      (testReconciler.Reconcile storeTerminating testRequest).state.requiredLive
        "test-secret" "default" = false) := by
  decide

/-- C5, amended: over the store, when `Reconcile` returns no error and the requested pod
is absent, or present with a zero DeletionTimestamp and an imagePullSecret named
`TriggerSecretName`, then in the resulting state of the request's namespace an
ExternalSecret named as the template exists exactly when some pod of that namespace,
whatever its DeletionTimestamp, has an imagePullSecret named `TriggerSecretName`. -/
theorem Reconcile_converges (trigger : String) (desired : ExternalSecret) (s : Store)
    (req : Request) (o : Outcome Store (ImagePullExternalSecretReconciler Store))
    (ho : (storeReconciler trigger desired).Reconcile s req = o)
    (hran : ∀ pod, (s.get req.NamespacedName).1 = .ok pod →
      IsZero pod.ObjectMeta.DeletionTimestamp = true ∧
        ∃ obj ∈ pod.Spec.ImagePullSecrets, obj.Name = trigger)
    (hok : o.err = none) :
    (o.state.present desired.Name req.Namespace = true ↔
      ∃ p ∈ o.state.pods, p.Namespace = req.Namespace ∧
        ∃ obj ∈ p.Spec.ImagePullSecrets, obj.Name = trigger) := by
  subst ho
  have fin : ∀ ns, req.Namespace = ns →
      (storeReconciler trigger desired).Reconcile s req =
        ⟨((storeReconciler trigger desired).reconcileExternalSecrets s ns).err,
          ((storeReconciler trigger desired).reconcileExternalSecrets s ns).state,
          .Get req.NamespacedName ::
            ((storeReconciler trigger desired).reconcileExternalSecrets s ns).calls,
          ((storeReconciler trigger desired).reconcileExternalSecrets s ns).receiver⟩ →
      ((storeReconciler trigger desired).Reconcile s req).err = none →
      (((storeReconciler trigger desired).Reconcile s req).state.present desired.Name
          req.Namespace = true ↔
        ∃ p ∈ ((storeReconciler trigger desired).Reconcile s req).state.pods,
          p.Namespace = req.Namespace ∧
            ∃ obj ∈ p.Spec.ImagePullSecrets, obj.Name = trigger) := by
    intro ns hns hrun hok2
    rw [hrun] at hok2 ⊢
    obtain ⟨hpods, _, hpresent, _⟩ := Store.reconcile_effect trigger desired s ns hok2
    simp only
    rw [hns, hpresent, ← Store.required_congr s _ trigger ns hpods, Store.required_iff]
  rcases Store.get_cases s req.NamespacedName with ⟨pod, hget, hns, _⟩ | ⟨e, hget, hnf⟩
  · obtain ⟨hz, obj, hmem, hobj⟩ := hran pod (by rw [hget])
    exact fin pod.Namespace hns.symm
      (ImagePullExternalSecretReconciler.Reconcile_relevant (storeReconciler trigger desired)
        s s req pod hget hz (List.any_eq_true.mpr ⟨obj, hmem, by simpa using hobj⟩)) hok
  · exact fin req.Namespace rfl
      (ImagePullExternalSecretReconciler.Reconcile_notFound (storeReconciler trigger desired)
        s s req e hget hnf) hok

theorem Reconcile_converges_witness :
    ((testReconciler.Reconcile storeAfterPodDeleted testRequest).state.present
        testTemplate.Name testRequest.Namespace = true ↔
      ∃ p ∈ (testReconciler.Reconcile storeAfterPodDeleted testRequest).state.pods,
        p.Namespace = testRequest.Namespace ∧
          ∃ obj ∈ p.Spec.ImagePullSecrets, obj.Name = "test-secret") :=
  Reconcile_converges "test-secret" testTemplate storeAfterPodDeleted testRequest _ rfl
    (fun pod h => by simp [Store.get, storeAfterPodDeleted] at h) (by decide)

/-- C6: over the store, when `Reconcile` returns no error and is invoked again with the
same request on the state it left, the second call issues no Create and no Delete and
returns no error. -/
theorem Reconcile_idempotent (trigger : String) (desired : ExternalSecret) (s : Store)
    (req : Request)
    (hok : ((storeReconciler trigger desired).Reconcile s req).err = none) :
    ((storeReconciler trigger desired).Reconcile
        ((storeReconciler trigger desired).Reconcile s req).state req).calls.countP
          Call.isMutation = 0 ∧
      ((storeReconciler trigger desired).Reconcile
        ((storeReconciler trigger desired).Reconcile s req).state req).calls.countP
          Call.isCreate = 0 ∧
      ((storeReconciler trigger desired).Reconcile
        ((storeReconciler trigger desired).Reconcile s req).state req).calls.countP
          Call.isDelete = 0 ∧
      ((storeReconciler trigger desired).Reconcile
        ((storeReconciler trigger desired).Reconcile s req).state req).err = none := by
  have quiet : ∀ key ns, List.countP Call.isMutation
        [Call.Get key, Call.ListPods ns, Call.ListExternalSecrets ns] = 0 ∧
      List.countP Call.isCreate [Call.Get key, Call.ListPods ns, Call.ListExternalSecrets ns]
        = 0 ∧
      List.countP Call.isDelete [Call.Get key, Call.ListPods ns, Call.ListExternalSecrets ns]
        = 0 := by
    intro key ns
    simp [List.countP_cons, Call.isMutation, Call.isCreate, Call.isDelete]
  have quiet1 : ∀ key, List.countP Call.isMutation [Call.Get key] = 0 ∧
      List.countP Call.isCreate [Call.Get key] = 0 ∧
      List.countP Call.isDelete [Call.Get key] = 0 := by
    intro key
    simp [List.countP_cons, Call.isMutation, Call.isCreate, Call.isDelete]
  have settle : ∀ ns,
      ((storeReconciler trigger desired).reconcileExternalSecrets s ns).err = none →
      (storeReconciler trigger desired).reconcileExternalSecrets
          ((storeReconciler trigger desired).reconcileExternalSecrets s ns).state ns =
        ⟨none, ((storeReconciler trigger desired).reconcileExternalSecrets s ns).state,
          [.ListPods ns, .ListExternalSecrets ns], storeReconciler trigger desired⟩ := by
    intro ns h
    obtain ⟨hpods, _, hpresent, _⟩ := Store.reconcile_effect trigger desired s ns h
    exact Store.reconcile_agree trigger desired _ ns
      (by rw [hpresent, Store.required_congr s _ trigger ns hpods])
  rcases Store.get_cases s req.NamespacedName with ⟨pod, hget, _, _⟩ | ⟨e, hget, hnf⟩
  · cases hz : IsZero pod.ObjectMeta.DeletionTimestamp
    · have h1 := ImagePullExternalSecretReconciler.Reconcile_irrelevant
        (storeReconciler trigger desired) s s req pod hget (Or.inl hz)
      rw [h1]
      simp only
      rw [h1]
      exact ⟨(quiet1 _).1, (quiet1 _).2.1, (quiet1 _).2.2, rfl⟩
    · cases hu : pod.Spec.ImagePullSecrets.any (fun obj => obj.Name == trigger)
      · have h1 := ImagePullExternalSecretReconciler.Reconcile_irrelevant
          (storeReconciler trigger desired) s s req pod hget (Or.inr hu)
        rw [h1]
        simp only
        rw [h1]
        exact ⟨(quiet1 _).1, (quiet1 _).2.1, (quiet1 _).2.2, rfl⟩
      · have h1 := ImagePullExternalSecretReconciler.Reconcile_relevant
          (storeReconciler trigger desired) s s req pod hget hz hu
        rw [h1] at hok ⊢
        simp only at hok ⊢
        obtain ⟨hpods, _, _, _⟩ := Store.reconcile_effect trigger desired s pod.Namespace hok
        have hget2 : (storeReconciler trigger desired).Client.Get
            ((storeReconciler trigger desired).reconcileExternalSecrets s pod.Namespace).state
            req.NamespacedName = (.ok pod,
              ((storeReconciler trigger desired).reconcileExternalSecrets s
                pod.Namespace).state) := by
          have := Store.get_after s _ req.NamespacedName hpods
          rw [hget] at this
          exact this
        rw [ImagePullExternalSecretReconciler.Reconcile_relevant
          (storeReconciler trigger desired) _ _ req pod hget2 hz hu,
          settle pod.Namespace hok]
        exact ⟨(quiet _ _).1, (quiet _ _).2.1, (quiet _ _).2.2, rfl⟩
  · have h1 := ImagePullExternalSecretReconciler.Reconcile_notFound
      (storeReconciler trigger desired) s s req e hget hnf
    rw [h1] at hok ⊢
    simp only at hok ⊢
    obtain ⟨hpods, _, _, _⟩ := Store.reconcile_effect trigger desired s req.Namespace hok
    have hget2 : (storeReconciler trigger desired).Client.Get
        ((storeReconciler trigger desired).reconcileExternalSecrets s req.Namespace).state
        req.NamespacedName = (.error e,
          ((storeReconciler trigger desired).reconcileExternalSecrets s
            req.Namespace).state) := by
      have := Store.get_after s _ req.NamespacedName hpods
      rw [hget] at this
      exact this
    rw [ImagePullExternalSecretReconciler.Reconcile_notFound
      (storeReconciler trigger desired) _ _ req e hget2 hnf,
      settle req.Namespace hok]
    exact ⟨(quiet _ _).1, (quiet _ _).2.1, (quiet _ _).2.2, rfl⟩

theorem Reconcile_idempotent_witness :
    (testReconciler.Reconcile storeWithPod testRequest).calls.countP Call.isCreate = 1 ∧
      (testReconciler.Reconcile
        (testReconciler.Reconcile storeWithPod testRequest).state testRequest).calls.countP
          Call.isMutation = 0 ∧
      (testReconciler.Reconcile
        (testReconciler.Reconcile storeWithPod testRequest).state testRequest).err = none :=
  ⟨by decide,
    (Reconcile_idempotent "test-secret" testTemplate storeWithPod testRequest (by decide)).1,
    (Reconcile_idempotent "test-secret" testTemplate storeWithPod testRequest
      (by decide)).2.2.2⟩

/-! ## The pod reconciler and deleted pods -/

/-- C4 is not met by `Reconcile` of the pod reconciler. After the pod of the tests was
deleted, with the Secret `test-secret` and the ExternalSecret `test-es` still in
`default`, `Reconcile` returns success after the `Get` alone and leaves the store as it
was; `reconcileExternalSecrets` on that namespace would have issued the Delete, and
`Reconcile` of the ExternalSecret reconciler does issue it. -/
theorem podReconcile_notFound_skips_reconciliation :
    (Store.get storeAfterPodDeleted testRequest.NamespacedName).1 =
        .error (.status .NotFound "pods \"test-pod\" not found") ∧
      (testPodReconciler.Reconcile storeAfterPodDeleted testRequest).calls =
        [.Get testRequest.NamespacedName] ∧
      (testPodReconciler.Reconcile storeAfterPodDeleted testRequest).err = none ∧
      (testPodReconciler.Reconcile storeAfterPodDeleted testRequest).state =
        storeAfterPodDeleted ∧
      (testPodReconciler.reconcileExternalSecrets storeAfterPodDeleted "default").calls =
        [.ListPods "default", .ListSecrets "default",
          .Delete (testTemplate.SetNamespace "default")] ∧
      (testReconciler.Reconcile storeAfterPodDeleted testRequest).calls =
        [.Get testRequest.NamespacedName, .ListPods "default",
          .ListExternalSecrets "default", .Delete (testTemplate.SetNamespace "default")] := by
  refine ⟨rfl, by decide, by decide, by decide, by decide, by decide⟩

end Controller
